import Mathlib

/-!
# AutoForge workspace-provisioning core: a shallow embedding

This file embeds, in Lean 4, the parts of the AutoForge repository that the
verified claims are about:

* the variable-expansion helpers `environment_variable_expand` (identical
  static methods in `core/environment.py` and `core/platform_tools.py`),
  together with faithful models of Python's `os.path.expanduser` and
  `os.path.expandvars` over an explicit environment;
* the `ProgressTracker` terminal state machine (`common/progress_tracker.py`);
* the subprocess supervisor `execute_shell_command`
  (`core/platform_tools.py`), modelled over an explicit poll-event trace;
* the sequence runner `run_sequence` and `_handle_conditional_step`
  (`core/platform_tools.py`);
* `path_erase` (`core/platform_tools.py`), over an abstract file system;
* `validate_prerequisite` and `_extract_decimal` (`core/environment.py`);
* the console entry point `auto_forge_main` (`auto_forge.py`).

Machine details that the Python runtime provides (the `pwd` user database,
wall-clock readings, the subprocess itself) appear as explicit parameters.
Strings are processed as `List Char`; Python byte strings of interest here
are decoded text, so a character-level model is faithful for the claims at
hand.
-/

/- ------------------------------------------------------------------ -/
/- Python string primitives                                           -/
/- ------------------------------------------------------------------ -/

/-- Python `re.ASCII` word character class `\w` = `[A-Za-z0-9_]`. -/
def isWordChar (c : Char) : Bool :=
  (('a' ≤ c && c ≤ 'z') || ('A' ≤ c && c ≤ 'Z') || ('0' ≤ c && c ≤ '9') || c = '_')

/-- The ASCII whitespace characters stripped by Python's `str.strip()`. -/
def isPyWs (c : Char) : Bool :=
  c = ' ' || c = '\t' || c = '\n' || c = '\x0d' || c = '\x0b' || c = '\x0c'

/-- Python `str.strip()` on a character list. -/
def pyStripL (l : List Char) : List Char :=
  ((l.dropWhile isPyWs).reverse.dropWhile isPyWs).reverse

/-- Python `str.strip()`. -/
def pyStrip (s : String) : String := String.mk (pyStripL s.data)

/-- Python `str.lower()` restricted to ASCII letters (the inputs compared in
the embedded code are plain ASCII status words). -/
def pyLowerL (l : List Char) : List Char :=
  l.map fun c => if 'A' ≤ c && c ≤ 'Z' then Char.ofNat (c.toNat + 32) else c

/-- `needle` is a leading segment of `hay`. -/
def leadsList : List Char → List Char → Bool
  | [], _ => true
  | _ :: _, [] => false
  | a :: as, b :: bs => a = b && leadsList as bs

/-- `needle` occurs contiguously somewhere in `hay` (Python `in` on `str`). -/
def hasSegB (needle : List Char) : List Char → Bool
  | [] => needle.isEmpty
  | c :: r => leadsList needle (c :: r) || hasSegB needle r

theorem leadsList_iff (n h : List Char) :
    leadsList n h = true ↔ ∃ t, h = n ++ t := by
  induction n generalizing h with
  | nil => simp [leadsList]
  | cons a as ih =>
    cases h with
    | nil => simp [leadsList]
    | cons b bs =>
      simp only [leadsList, Bool.and_eq_true, decide_eq_true_eq, ih, List.cons_append,
        List.cons.injEq]
      constructor
      · rintro ⟨rfl, t, rfl⟩; exact ⟨t, rfl, rfl⟩
      · rintro ⟨t, rfl, rfl⟩; exact ⟨rfl, t, rfl⟩

theorem hasSegB_iff (n h : List Char) :
    hasSegB n h = true ↔ ∃ l r, h = l ++ n ++ r := by
  induction h with
  | nil =>
    simp only [hasSegB, List.isEmpty_iff]
    constructor
    · rintro rfl; exact ⟨[], [], rfl⟩
    · rintro ⟨l, r, hl⟩
      rcases List.append_eq_nil.mp (List.append_eq_nil.mp hl.symm).1 with ⟨-, h2⟩
      exact h2
  | cons c cs ih =>
    simp only [hasSegB, Bool.or_eq_true, leadsList_iff, ih]
    constructor
    · rintro (⟨t, ht⟩ | ⟨l, r, rfl⟩)
      · exact ⟨[], t, by simp [ht]⟩
      · exact ⟨c :: l, r, rfl⟩
    · rintro ⟨l, r, hl⟩
      cases l with
      | nil => exact Or.inl ⟨r, by simpa using hl⟩
      | cons x xs =>
        simp only [List.cons_append, List.cons.injEq] at hl
        exact Or.inr ⟨xs, r, hl.2⟩

/- ------------------------------------------------------------------ -/
/- Environment lookup                                                 -/
/- ------------------------------------------------------------------ -/

/-- A process environment: association list from names to values, first
binding wins (as `os.environ` has unique keys). -/
abbrev Env := List (String × String)

/-- Equality of `Except` results is decidable componentwise (used to
evaluate concrete runs). -/
instance {e a : Type} [DecidableEq e] [DecidableEq a] :
    DecidableEq (Except e a) := fun x y => by
  cases x <;> cases y <;>
    first
      | (rename_i u v
         exact if h : u = v then isTrue (by rw [h]) else isFalse (by
           intro hc; cases hc; exact h rfl))
      | (apply isFalse; intro h; cases h)

/-- `os.environ[name]` lookup. -/
def lookupEnv (env : Env) (name : List Char) : Option (List Char) :=
  match env.find? (fun p => p.1.data = name) with
  | some p => some p.2.data
  | none => none

/- ------------------------------------------------------------------ -/
/- os.path.expanduser (posixpath)                                     -/
/- ------------------------------------------------------------------ -/

/-- Python `str.rstrip('/')` on lists. -/
def rstripSlash (l : List Char) : List Char :=
  (l.reverse.dropWhile (· = '/')).reverse

/-- Model of `posixpath.expanduser`.  A leading `~` with no user name is
replaced by `HOME` (with trailing `/` stripped); the `pwd`-database fallbacks
(no `HOME` set, or a `~user` form) are modelled as returning the input
unchanged, which is the CPython behaviour for an unknown user and the only
point where the model abstracts the machine's account database. -/
def pyExpanduser (env : Env) (path : List Char) : List Char :=
  if path.head? = some '~' then
    let rest := path.tail
    let userpart := rest.takeWhile (· ≠ '/')
    let tail := rest.dropWhile (· ≠ '/')
    if userpart.isEmpty then
      match lookupEnv env "HOME".data with
      | none => path
      | some home =>
        let h := rstripSlash home
        if (h ++ tail).isEmpty then ['/'] else h ++ tail
    else path
  else path

/- ------------------------------------------------------------------ -/
/- os.path.expandvars (posixpath)                                     -/
/- ------------------------------------------------------------------ -/

/-- Split a list at the first `'}'`: returns the part before it and the part
after it, or `none` when there is no `'}'` (the regex `\{[^}]*\}` then has no
match). -/
def breakAtBrace : List Char → Option (List Char × List Char)
  | [] => none
  | c :: r =>
    if c = '}' then some ([], r)
    else
      match breakAtBrace r with
      | some (a, b) => some (c :: a, b)
      | none => none

/-- Maximal run of `\w` characters at the head of the list, and the rest. -/
def takeWordRun : List Char → List Char × List Char
  | [] => ([], [])
  | c :: cs =>
    if isWordChar c then
      let wr := takeWordRun cs
      (c :: wr.1, wr.2)
    else ([], c :: cs)

theorem breakAtBrace_some_length {l a b : List Char}
    (h : breakAtBrace l = some (a, b)) : b.length < l.length := by
  induction l generalizing a b with
  | nil => simp [breakAtBrace] at h
  | cons c r ih =>
    by_cases hc : c = '}'
    · simp only [breakAtBrace, if_pos hc, Option.some.injEq, Prod.mk.injEq] at h
      rw [← h.2]
      simp
    · simp only [breakAtBrace, if_neg hc] at h
      cases hb : breakAtBrace r with
      | none => rw [hb] at h; exact absurd h (by simp)
      | some p =>
        obtain ⟨p1, p2⟩ := p
        rw [hb] at h
        simp only [Option.some.injEq, Prod.mk.injEq] at h
        have hlt := ih (a := p1) (b := p2) (by rw [hb])
        rw [← h.2]
        calc p2.length < r.length := hlt
        _ < (c :: r).length := by simp

theorem takeWordRun_snd_length (l : List Char) :
    (takeWordRun l).2.length ≤ l.length := by
  induction l with
  | nil => simp [takeWordRun]
  | cons c cs ih =>
    by_cases hc : isWordChar c
    · simp only [takeWordRun, if_pos hc]
      exact le_trans ih (by simp)
    · simp [takeWordRun, if_neg hc]

/-- Processing of the text following a `$` in `posixpath.expandvars`: returns
the emitted text and the remaining input.  An undefined name leaves the
original text in place; a defined name is replaced by its value (which is not
rescanned). -/
def afterDollar (env : Env) : List Char → List Char × List Char
  | [] => (['$'], [])
  | c :: r2 =>
    if c = '{' then
      match breakAtBrace r2 with
      | some (name, after) =>
        match lookupEnv env name with
        | some v => (v, after)
        | none => ('$' :: '{' :: (name ++ ['}']), after)
      | none => (['$'], c :: r2)
    else if isWordChar c then
      let wr := takeWordRun (c :: r2)
      match lookupEnv env wr.1 with
      | some v => (v, wr.2)
      | none => ('$' :: wr.1, wr.2)
    else (['$'], c :: r2)

theorem afterDollar_snd_length (env : Env) (r : List Char) :
    (afterDollar env r).2.length ≤ r.length := by
  cases r with
  | nil => simp [afterDollar]
  | cons c r2 =>
    by_cases hc : c = '{'
    · simp only [afterDollar, if_pos hc]
      cases hb : breakAtBrace r2 with
      | none => simp
      | some p =>
        have := breakAtBrace_some_length (l := r2) (a := p.1) (b := p.2) (by simp [hb])
        cases hl : lookupEnv env p.1 <;> simp [hl] <;> omega
    · by_cases hw : isWordChar c
      · simp only [afterDollar, if_neg hc, if_pos hw]
        have h1 : (takeWordRun (c :: r2)).2.length ≤ (c :: r2).length :=
          takeWordRun_snd_length _
        cases hl : lookupEnv env (takeWordRun (c :: r2)).1 <;> simp [hl] <;>
          simpa using h1
      · simp [afterDollar, if_neg hc, if_neg hw]

/-- The scan loop of `posixpath.expandvars`; `fuel` bounds the number of
characters consumed and is instantiated with the input length (each step
consumes at least one character, so the fallthrough `fuel = 0` case with
input remaining is unreachable). -/
def expandVarsGo (env : Env) : Nat → List Char → List Char
  | _, [] => []
  | 0, l => l
  | fuel + 1, c :: rest =>
    if c = '$' then
      (afterDollar env rest).1 ++ expandVarsGo env fuel (afterDollar env rest).2
    else
      c :: expandVarsGo env fuel rest

/-- Model of `posixpath.expandvars` over an explicit environment: scans for
`$(\w+|\{[^}]*\})` matches; defined names are substituted (the substituted
value is not rescanned, as CPython resumes after the inserted value),
undefined names are left in place. -/
def expandVars (env : Env) (l : List Char) : List Char :=
  expandVarsGo env l.length l

theorem expandVarsGo_fuel {env : Env} :
    ∀ (f g : Nat) (l : List Char), l.length ≤ f → l.length ≤ g →
      expandVarsGo env f l = expandVarsGo env g l := by
  intro f
  induction f with
  | zero =>
    intro g l hf _
    have : l = [] := List.eq_nil_of_length_eq_zero (Nat.le_zero.mp hf)
    subst this
    cases g <;> simp [expandVarsGo]
  | succ f ih =>
    intro g l hf hg
    cases l with
    | nil => cases g <;> simp [expandVarsGo]
    | cons c rest =>
      cases g with
      | zero => simp at hg
      | succ g =>
        simp only [expandVarsGo]
        by_cases hc : c = '$'
        · rw [if_pos hc, if_pos hc]
          have hrem := afterDollar_snd_length env rest
          simp only [List.length_cons, Nat.succ_le_succ_iff] at hf hg
          rw [ih g _ (le_trans hrem hf) (le_trans hrem hg)]
        · rw [if_neg hc, if_neg hc]
          simp only [List.length_cons, Nat.succ_le_succ_iff] at hf hg
          rw [ih g _ hf hg]

theorem expandVars_nil (env : Env) : expandVars env [] = [] := rfl

theorem expandVars_cons_dollar (env : Env) (rest : List Char) :
    expandVars env ('$' :: rest) =
      (afterDollar env rest).1 ++ expandVars env (afterDollar env rest).2 := by
  show expandVarsGo env (rest.length + 1) ('$' :: rest) = _
  simp only [expandVarsGo, if_pos rfl]
  rw [expandVarsGo_fuel rest.length (afterDollar env rest).2.length _
    (afterDollar_snd_length env rest) le_rfl]
  rfl

theorem expandVars_cons_other (env : Env) {c : Char} (hc : c ≠ '$')
    (rest : List Char) :
    expandVars env (c :: rest) = c :: expandVars env rest := by
  show expandVarsGo env (rest.length + 1) (c :: rest) = _
  simp only [expandVarsGo, if_neg hc]
  rfl

/- ------------------------------------------------------------------ -/
/- The `$(...)` pattern                                               -/
/- ------------------------------------------------------------------ -/

/-- Split a list at the first `')'` (the regex `\$\([^)]*\)` body). -/
def breakAtParen : List Char → Option (List Char × List Char)
  | [] => none
  | c :: r =>
    if c = ')' then some ([], r)
    else
      match breakAtParen r with
      | some (a, b) => some (c :: a, b)
      | none => none

theorem breakAtParen_some_length {l a b : List Char}
    (h : breakAtParen l = some (a, b)) : b.length < l.length := by
  induction l generalizing a b with
  | nil => simp [breakAtParen] at h
  | cons c r ih =>
    by_cases hc : c = ')'
    · simp only [breakAtParen, if_pos hc, Option.some.injEq, Prod.mk.injEq] at h
      rw [← h.2]
      simp
    · simp only [breakAtParen, if_neg hc] at h
      cases hb : breakAtParen r with
      | none => rw [hb] at h; exact absurd h (by simp)
      | some p =>
        obtain ⟨p1, p2⟩ := p
        rw [hb] at h
        simp only [Option.some.injEq, Prod.mk.injEq] at h
        have hlt := ih (a := p1) (b := p2) (by rw [hb])
        rw [← h.2]
        calc p2.length < r.length := hlt
        _ < (c :: r).length := by simp

/-- Scan loop for deleting `\$\([^)]*\)` matches, fuelled like
`expandVarsGo`. -/
def removeCmdSubstGo : Nat → List Char → List Char
  | _, [] => []
  | 0, l => l
  | fuel + 1, c :: r =>
    if c = '$' && r.head? = some '(' then
      match breakAtParen r.tail with
      | some (_, after) => removeCmdSubstGo fuel after
      | none => c :: removeCmdSubstGo fuel r
    else c :: removeCmdSubstGo fuel r

/-- `re.sub(r'\$\([^)]*\)', '', s)`: every `$(...)` match deleted.  Used by
`environment_variable_expand` to test for unexpanded `$` outside command
substitutions. -/
def removeCmdSubst (l : List Char) : List Char :=
  removeCmdSubstGo l.length l

theorem removeCmdSubstGo_fuel :
    ∀ (f g : Nat) (l : List Char), l.length ≤ f → l.length ≤ g →
      removeCmdSubstGo f l = removeCmdSubstGo g l := by
  intro f
  induction f with
  | zero =>
    intro g l hf _
    have : l = [] := List.eq_nil_of_length_eq_zero (Nat.le_zero.mp hf)
    subst this
    cases g <;> simp [removeCmdSubstGo]
  | succ f ih =>
    intro g l hf hg
    cases l with
    | nil => cases g <;> simp [removeCmdSubstGo]
    | cons c r =>
      cases g with
      | zero => simp at hg
      | succ g =>
        simp only [List.length_cons, Nat.succ_le_succ_iff] at hf hg
        simp only [removeCmdSubstGo]
        by_cases hc : (c = '$' && r.head? = some '(') = true
        · rw [if_pos hc, if_pos hc]
          cases hb : breakAtParen r.tail with
          | some p =>
            obtain ⟨p1, p2⟩ := p
            have hlt := breakAtParen_some_length hb
            have htl : r.tail.length ≤ r.length := by cases r <;> simp
            exact ih g p2 (by omega) (by omega)
          | none =>
            show c :: removeCmdSubstGo f r = c :: removeCmdSubstGo g r
            rw [ih g _ hf hg]
        · rw [if_neg hc, if_neg hc, ih g _ hf hg]

/- ------------------------------------------------------------------ -/
/- environment_variable_expand                                        -/
/- ------------------------------------------------------------------ -/

/-- The error message built by `environment_variable_expand` when an
unexpanded `$` remains: the text from the first `$` up to the following `/`
(or the end of the string). -/
def unresolvedVarMessage (restored : List Char) : String :=
  let afterStart := restored.dropWhile (· ≠ '$')
  let varName := afterStart.takeWhile (· ≠ '/')
  "environment variable '" ++ String.mk varName ++ "' could not be expanded"

/-- `environment_variable_expand(text)` as defined (identically) in
`CoreEnvironment` and `CorePlatform`: empty-after-strip input returns `""`;
otherwise the input goes through `os.path.expanduser`, then through an
`re.sub` over `\$\([^)]*\)` whose replacement returns the match itself (a
no-op), then through `os.path.expandvars`, then through the same no-op sub
again; finally, if a `$` remains outside any `$(...)` match, a `ValueError`
is raised.  The `to_absolute_path` flag (default `False`, not used by the
claims) is not modelled. -/
def environment_variable_expand (env : Env) (text : String) : Except String String :=
  if (pyStripL text.data).isEmpty then .ok "" else
  let pathWithUser := pyExpanduser env text.data
  -- `command_substitution_pattern.sub(_ignore_command_substitution, ...)`
  -- replaces every match by itself, so both "temporarily replace" and
  -- "restore" steps leave the string unchanged.
  let tempReplacement := pathWithUser
  let expandedPath := expandVars env tempReplacement
  let restoredPath := expandedPath
  if (removeCmdSubst restoredPath).any (· = '$') then
    .error (unresolvedVarMessage restoredPath)
  else
    .ok (String.mk restoredPath)

example :
    environment_variable_expand [("HOME", "/home/u")] "${HOME}/ws" =
      .ok "/home/u/ws" := by rfl
example :
    environment_variable_expand [("HOME", "/home/u")] "echo $(date)" =
      .ok "echo $(date)" := by rfl
example :
    environment_variable_expand [("HOME", "/home/u")] "echo $(echo $HOME)" =
      .ok "echo $(echo /home/u)" := by rfl
example :
    environment_variable_expand [("HOME", "/home/u")] "~/ws" =
      .ok "/home/u/ws" := by rfl
example :
    environment_variable_expand [("HOME", "/home/u")] "$MISSING/x" =
      .error "environment variable '$MISSING' could not be expanded" := by rfl

example : expandVars [("HOME", "/home/u")] "$$HOME".data = "$/home/u".data := by rfl
example : expandVars [("HOME", "/home/u")] "${A$(x}y)".data = "${A$(x}y)".data := by rfl
example : expandVars [("HOME", "/home/u")] "$\x7bunclosed".data = "$\x7bunclosed".data := by rfl
example : pyExpanduser [("HOME", "/home/u")] "~unknownuser/x".data = "~unknownuser/x".data := by rfl
example : pyExpanduser [("HOME", "/home/u")] "~$(x)/y".data = "~$(x)/y".data := by rfl
example :
    environment_variable_expand [("HOME", "/home/u"), ("FOO", "~")] "$FOO" = .ok "~" := by rfl
example :
    environment_variable_expand [("HOME", "/home/u"), ("FOO", "~")] "~" = .ok "/home/u" := by rfl

/- ------------------------------------------------------------------ -/
/- Structural lemmas about the expansion scanners                     -/
/- ------------------------------------------------------------------ -/

theorem mem_dropWhile_of_not {p : Char → Bool} {x : Char} :
    ∀ {l : List Char}, x ∈ l → p x = false → x ∈ l.dropWhile p := by
  intro l hx hp
  induction l with
  | nil => cases hx
  | cons c r ih =>
    by_cases hc : p c = true
    · rw [List.dropWhile_cons_of_pos hc]
      rcases List.mem_cons.mp hx with rfl | hr
      · rw [hc] at hp; cases hp
      · exact ih hr
    · rw [List.dropWhile_cons_of_neg hc]
      exact hx

theorem pyStripL_ne_nil {l : List Char} {x : Char}
    (hx : x ∈ l) (hp : isPyWs x = false) : pyStripL l ≠ [] := by
  intro h
  unfold pyStripL at h
  have h1 : x ∈ l.dropWhile isPyWs := mem_dropWhile_of_not hx hp
  have h2 : x ∈ (l.dropWhile isPyWs).reverse := List.mem_reverse.mpr h1
  have h3 : x ∈ (l.dropWhile isPyWs).reverse.dropWhile isPyWs :=
    mem_dropWhile_of_not h2 hp
  have h4 : x ∈ ((l.dropWhile isPyWs).reverse.dropWhile isPyWs).reverse :=
    List.mem_reverse.mpr h3
  rw [h] at h4
  cases h4

/-- The scanner copies a `$`-free segment verbatim.  -/
theorem expandVars_copy (env : Env) :
    ∀ (l t : List Char), (∀ c ∈ l, c ≠ '$') →
      expandVars env (l ++ t) = l ++ expandVars env t := by
  intro l
  induction l with
  | nil => intro t _; simp
  | cons c r ih =>
    intro t hl
    have hc : c ≠ '$' := hl c (by simp)
    rw [List.cons_append, expandVars_cons_other env hc,
      ih t (fun x hx => hl x (by simp [hx]))]
    simp

/-- A `$`-free string is a fixed point of the scanner. -/
theorem expandVars_noDollar (env : Env) (l : List Char)
    (hl : ∀ c ∈ l, c ≠ '$') : expandVars env l = l := by
  have h := expandVars_copy env l [] hl
  rw [expandVars_nil, List.append_nil] at h
  exact h

/-- When every environment name consists of `\w` characters only, a name
containing a non-word character is never defined. -/
theorem lookupEnv_none_of_nonword {env : Env}
    (henv : ∀ p ∈ env, ∀ ch ∈ (Prod.fst p).data, isWordChar ch = true)
    (name : List Char) (x : Char) (hx : x ∈ name) (hw : isWordChar x = false) :
    lookupEnv env name = none := by
  unfold lookupEnv
  cases hf : env.find? (fun p => p.1.data = name) with
  | none => rfl
  | some p =>
    have hpred := List.find?_some hf
    have hmem := List.mem_of_find?_eq_some hf
    simp only [decide_eq_true_eq] at hpred
    have := henv p hmem x (hpred ▸ hx)
    rw [this] at hw
    cases hw

theorem isWordChar_dollar : isWordChar '$' = false := by decide

/-- A word run stops at the boundary of a block whose head is not a word
character. -/
theorem takeWordRun_append (z : List Char)
    (hz : z = [] ∨ ∃ h t, z = h :: t ∧ isWordChar h = false) :
    ∀ (l : List Char),
      takeWordRun (l ++ z) = ((takeWordRun l).1, (takeWordRun l).2 ++ z) := by
  intro l
  induction l with
  | nil =>
    rcases hz with rfl | ⟨h, t, rfl, hw⟩
    · simp [takeWordRun]
    · simp [takeWordRun, hw]
  | cons c r ih =>
    by_cases hc : isWordChar c = true
    · simp only [List.cons_append, takeWordRun, if_pos hc, List.append_eq, ih]
    · simp only [List.cons_append, takeWordRun, if_neg hc]
      rfl

/-- Building a `breakAtBrace` result from a decomposition at the first
closing brace. -/
theorem breakAtBrace_build {t1 : List Char} (h : '}' ∉ t1) (z : List Char) :
    breakAtBrace (t1 ++ '}' :: z) = some (t1, z) := by
  induction t1 with
  | nil => simp [breakAtBrace]
  | cons c r ih =>
    have hc : c ≠ '}' := fun hcc => h (by simp [hcc])
    rw [List.cons_append]
    simp only [breakAtBrace, if_neg hc, ih (fun hr => h (by simp [hr]))]

/-- Without any closing brace, `breakAtBrace` has no match. -/
theorem breakAtBrace_none {l : List Char} (h : '}' ∉ l) :
    breakAtBrace l = none := by
  induction l with
  | nil => rfl
  | cons c r ih =>
    have hc : c ≠ '}' := fun hcc => h (by simp [hcc])
    simp only [breakAtBrace, if_neg hc, ih (fun hr => h (by simp [hr]))]

/-- Split a list at the first occurrence of a member. -/
theorem first_occurrence_split {x : Char} :
    ∀ {l : List Char}, x ∈ l → ∃ l1 l2, l = l1 ++ x :: l2 ∧ x ∉ l1 := by
  intro l hx
  induction l with
  | nil => cases hx
  | cons c r ih =>
    by_cases hc : c = x
    · exact ⟨[], r, by simp [hc], by simp⟩
    · rcases List.mem_cons.mp hx with rfl | hr
      · exact absurd rfl hc
      · obtain ⟨l1, l2, rfl, hnl⟩ := ih hr
        exact ⟨c :: l1, l2, rfl, by
          intro hmem
          rcases List.mem_cons.mp hmem with h1 | h1
          · exact hc h1.symm
          · exact hnl h1⟩

theorem afterDollar_other (env : Env) {c : Char} (h1 : c ≠ '{')
    (h2 : isWordChar c = false) (r2 : List Char) :
    afterDollar env (c :: r2) = (['$'], c :: r2) := by
  simp only [afterDollar, if_neg h1, h2]
  simp

theorem afterDollar_brace_found (env : Env) {r2 name after v : List Char}
    (h : breakAtBrace r2 = some (name, after))
    (hl : lookupEnv env name = some v) :
    afterDollar env ('{' :: r2) = (v, after) := by
  simp only [afterDollar, if_pos rfl, h, hl]
  simp

theorem afterDollar_brace_notfound (env : Env) {r2 name after : List Char}
    (h : breakAtBrace r2 = some (name, after))
    (hl : lookupEnv env name = none) :
    afterDollar env ('{' :: r2) = ('$' :: '{' :: (name ++ ['}']), after) := by
  simp only [afterDollar, if_pos rfl, h, hl]
  simp

theorem afterDollar_brace_none (env : Env) {r2 : List Char}
    (h : breakAtBrace r2 = none) :
    afterDollar env ('{' :: r2) = (['$'], '{' :: r2) := by
  simp only [afterDollar, if_pos rfl, h]
  simp

theorem not_brace_of_word {c : Char} (hw : isWordChar c = true) : c ≠ '{' := by
  intro h
  rw [h] at hw
  exact absurd hw (by decide)

theorem afterDollar_word_found (env : Env) {c : Char} (hw : isWordChar c = true)
    {r2 v : List Char} (hl : lookupEnv env (takeWordRun (c :: r2)).1 = some v) :
    afterDollar env (c :: r2) = (v, (takeWordRun (c :: r2)).2) := by
  simp only [afterDollar, if_neg (not_brace_of_word hw), if_pos hw, hl]

theorem afterDollar_word_notfound (env : Env) {c : Char} (hw : isWordChar c = true)
    {r2 : List Char} (hl : lookupEnv env (takeWordRun (c :: r2)).1 = none) :
    afterDollar env (c :: r2) =
      ('$' :: (takeWordRun (c :: r2)).1, (takeWordRun (c :: r2)).2) := by
  simp only [afterDollar, if_neg (not_brace_of_word hw), if_pos hw, hl]

/-- A `$(...)` occurrence at the head of the input passes through the scanner
verbatim (the `$` is followed by `(`, which the `$(\w+|\{[^}]*\})` pattern
cannot match, and the body contains no `$`). -/
theorem expandVars_region_head (env : Env) (c b : List Char)
    (hc : ∀ ch ∈ c, ch ≠ '$') :
    expandVars env ('$' :: '(' :: (c ++ ')' :: b)) =
      '$' :: '(' :: (c ++ ')' :: expandVars env b) := by
  rw [expandVars_cons_dollar, afterDollar_other env (by decide) (by decide)]
  rw [expandVars_cons_other env (by decide), expandVars_copy env c _ hc,
    expandVars_cons_other env (by decide)]
  rfl


/-- Core preservation property of `posixpath.expandvars`: when every
environment name is made of `\w` characters only, a `$(...)` occurrence whose
body contains no `$` survives the scan byte-for-byte (a `${...}` reference
reaching into or across it necessarily carries a `$` or `(` in its name and
is therefore undefined, hence left in place). -/
theorem expandVars_preserves_region (env : Env)
    (henv : ∀ p ∈ env, ∀ ch ∈ (Prod.fst p).data, isWordChar ch = true) :
    ∀ (n : Nat) (a c b : List Char), a.length ≤ n → (∀ ch ∈ c, ch ≠ '$') →
      ∃ a2 b2, expandVars env (a ++ '$' :: '(' :: (c ++ ')' :: b)) =
        a2 ++ '$' :: '(' :: (c ++ ')' :: b2) := by
  intro n
  induction n with
  | zero =>
    intro a c b ha hc
    have : a = [] := List.eq_nil_of_length_eq_zero (Nat.le_zero.mp ha)
    subst this
    exact ⟨[], expandVars env b, by
      rw [List.nil_append, expandVars_region_head env c b hc]; simp⟩
  | succ n ih =>
    intro a c b ha hc
    cases a with
    | nil =>
      exact ⟨[], expandVars env b, by
        rw [List.nil_append, expandVars_region_head env c b hc]; simp⟩
    | cons x a1 =>
      simp only [List.length_cons, Nat.succ_le_succ_iff] at ha
      by_cases hx : x = '$'
      · subst hx
        cases a1 with
        | nil =>
          rw [List.cons_append, List.nil_append, expandVars_cons_dollar,
            afterDollar_other env (by decide) (by decide),
            expandVars_region_head env c b hc]
          exact ⟨['$'], expandVars env b, rfl⟩
        | cons y t =>
          simp only [List.length_cons, Nat.succ_le_succ_iff] at ha
          by_cases hy : y = '{'
          · subst hy
            by_cases hbt : '}' ∈ t
            · obtain ⟨t1, t2, rfl, hnot⟩ := first_occurrence_split hbt
              have hlen2 : t2.length ≤ n := by
                simp only [List.length_append, List.length_cons] at ha
                omega
              obtain ⟨a2, b2, hrec⟩ := ih t2 c b hlen2 hc
              rw [List.cons_append, List.cons_append, expandVars_cons_dollar]
              rw [show ('{' :: ((t1 ++ '}' :: t2) ++ '$' :: '(' :: (c ++ ')' :: b)))
                  = '{' :: (t1 ++ '}' :: (t2 ++ '$' :: '(' :: (c ++ ')' :: b)))
                from by simp]
              cases hl : lookupEnv env t1 with
              | some v =>
                rw [afterDollar_brace_found env (breakAtBrace_build hnot _) hl]
                rw [hrec]
                exact ⟨v ++ a2, b2, by simp⟩
              | none =>
                rw [afterDollar_brace_notfound env (breakAtBrace_build hnot _) hl]
                rw [hrec]
                exact ⟨('$' :: '{' :: (t1 ++ ['}'])) ++ a2, b2, by simp⟩
            · by_cases hbc : '}' ∈ c
              · obtain ⟨c1, c2, rfl, hnc⟩ := first_occurrence_split hbc
                have hname : '}' ∉ (t ++ '$' :: '(' :: c1) := by
                  intro hm
                  rcases List.mem_append.mp hm with h1 | h1
                  · exact hbt h1
                  · rcases List.mem_cons.mp h1 with h2 | h2
                    · cases h2
                    · rcases List.mem_cons.mp h2 with h3 | h3
                      · cases h3
                      · exact hnc h3
                have hdollar : lookupEnv env (t ++ '$' :: '(' :: c1) = none :=
                  lookupEnv_none_of_nonword henv _ '$' (by simp) (by decide)
                rw [List.cons_append, List.cons_append, expandVars_cons_dollar]
                rw [show ('{' :: (t ++ '$' :: '(' :: ((c1 ++ '}' :: c2) ++ ')' :: b)))
                    = '{' :: ((t ++ '$' :: '(' :: c1) ++ '}' :: (c2 ++ ')' :: b))
                  from by simp]
                rw [afterDollar_brace_notfound env (breakAtBrace_build hname _) hdollar]
                have hc2 : ∀ ch ∈ c2, ch ≠ '$' := fun ch hm =>
                  hc ch (by simp [hm])
                rw [expandVars_copy env c2 _ hc2, expandVars_cons_other env (by decide)]
                refine ⟨'$' :: '{' :: t, expandVars env b, ?_⟩
                simp
              · by_cases hbb : '}' ∈ b
                · obtain ⟨b1, b2x, rfl, hnb⟩ := first_occurrence_split hbb
                  have hname : '}' ∉ (t ++ '$' :: '(' :: (c ++ ')' :: b1)) := by
                    intro hm
                    rcases List.mem_append.mp hm with h1 | h1
                    · exact hbt h1
                    · rcases List.mem_cons.mp h1 with h2 | h2
                      · cases h2
                      · rcases List.mem_cons.mp h2 with h3 | h3
                        · cases h3
                        · rcases List.mem_append.mp h3 with h4 | h4
                          · exact hbc h4
                          · rcases List.mem_cons.mp h4 with h5 | h5
                            · cases h5
                            · exact hnb h5
                  have hdollar : lookupEnv env (t ++ '$' :: '(' :: (c ++ ')' :: b1)) =
                      none :=
                    lookupEnv_none_of_nonword henv _ '$' (by simp) (by decide)
                  rw [List.cons_append, List.cons_append, expandVars_cons_dollar]
                  rw [show ('{' :: (t ++ '$' :: '(' :: (c ++ ')' :: (b1 ++ '}' :: b2x))))
                      = '{' :: ((t ++ '$' :: '(' :: (c ++ ')' :: b1)) ++ '}' :: b2x)
                    from by simp]
                  rw [afterDollar_brace_notfound env (breakAtBrace_build hname _) hdollar]
                  refine ⟨'$' :: '{' :: t, b1 ++ '}' :: expandVars env b2x, ?_⟩
                  simp
                · have hnone : '}' ∉ (t ++ '$' :: '(' :: (c ++ ')' :: b)) := by
                    intro hm
                    rcases List.mem_append.mp hm with h1 | h1
                    · exact hbt h1
                    · rcases List.mem_cons.mp h1 with h2 | h2
                      · cases h2
                      · rcases List.mem_cons.mp h2 with h3 | h3
                        · cases h3
                        · rcases List.mem_append.mp h3 with h4 | h4
                          · exact hbc h4
                          · rcases List.mem_cons.mp h4 with h5 | h5
                            · cases h5
                            · exact hbb h5
                  obtain ⟨a2, b2, hrec⟩ := ih t c b (by omega) hc
                  rw [List.cons_append, List.cons_append, expandVars_cons_dollar,
                    afterDollar_brace_none env (breakAtBrace_none hnone),
                    expandVars_cons_other env (by decide), hrec]
                  exact ⟨'$' :: '{' :: a2, b2, rfl⟩
          · by_cases hw : isWordChar y = true
            · have hz : ('$' :: '(' :: (c ++ ')' :: b)) = [] ∨
                  ∃ h t', ('$' :: '(' :: (c ++ ')' :: b)) = h :: t' ∧
                    isWordChar h = false :=
                Or.inr ⟨'$', _, rfl, by decide⟩
              have htw := takeWordRun_append _ hz (y :: t)
              have hr0 := takeWordRun_snd_length (y :: t)
              have hlen : (takeWordRun (y :: t)).2.length ≤ n := by
                simp only [List.length_cons] at hr0
                omega
              obtain ⟨a2, b2, hrec⟩ := ih (takeWordRun (y :: t)).2 c b hlen hc
              rw [List.cons_append, expandVars_cons_dollar]
              rw [show ((y :: t) ++ '$' :: '(' :: (c ++ ')' :: b))
                  = y :: (t ++ '$' :: '(' :: (c ++ ')' :: b)) from by simp]
              cases hl : lookupEnv env (takeWordRun
                  (y :: (t ++ '$' :: '(' :: (c ++ ')' :: b)))).1 with
              | some v =>
                rw [afterDollar_word_found env hw hl]
                rw [show (y :: (t ++ '$' :: '(' :: (c ++ ')' :: b)))
                    = ((y :: t) ++ '$' :: '(' :: (c ++ ')' :: b)) from by simp,
                  htw, hrec]
                exact ⟨v ++ a2, b2, by simp⟩
              | none =>
                rw [afterDollar_word_notfound env hw hl]
                rw [show (y :: (t ++ '$' :: '(' :: (c ++ ')' :: b)))
                    = ((y :: t) ++ '$' :: '(' :: (c ++ ')' :: b)) from by simp,
                  htw, hrec]
                exact ⟨'$' :: ((takeWordRun (y :: t)).1 ++ a2), b2, by simp⟩
            · obtain ⟨a2, b2, hrec⟩ := ih (y :: t) c b (by simpa using ha) hc
              rw [List.cons_append, expandVars_cons_dollar]
              rw [show ((y :: t) ++ '$' :: '(' :: (c ++ ')' :: b))
                  = y :: (t ++ '$' :: '(' :: (c ++ ')' :: b)) from by simp]
              rw [afterDollar_other env hy (Bool.eq_false_iff.mpr hw)]
              rw [show (y :: (t ++ '$' :: '(' :: (c ++ ')' :: b)))
                  = ((y :: t) ++ '$' :: '(' :: (c ++ ')' :: b)) from by simp,
                hrec]
              exact ⟨'$' :: a2, b2, rfl⟩
      · obtain ⟨a2, b2, hrec⟩ := ih a1 c b ha hc
        rw [List.cons_append, expandVars_cons_other env hx, hrec]
        exact ⟨x :: a2, b2, rfl⟩

/-- `expanduser` rewrites at most the `~...` prefix before the first `/`, so
a `$(...)` occurrence (whose first character is `$`, not `~`) survives it,
with the text after the occurrence untouched. -/
theorem pyExpanduser_preserves_region (env : Env) (a c b : List Char) :
    ∃ a2, pyExpanduser env (a ++ '$' :: '(' :: (c ++ ')' :: b)) =
      a2 ++ '$' :: '(' :: (c ++ ')' :: b) := by
  cases a with
  | nil =>
    refine ⟨[], ?_⟩
    rw [List.nil_append]
    unfold pyExpanduser
    rw [if_neg (by simp)]
  | cons x a1 =>
    by_cases hx : x = '~'
    · subst hx
      unfold pyExpanduser
      rw [if_pos (by simp)]
      simp only [List.cons_append, List.tail_cons]
      cases a1 with
      | nil =>
        rw [List.nil_append]
        rw [show ('$' :: '(' :: (c ++ ')' :: b)).takeWhile (· ≠ '/')
            = '$' :: (('(' :: (c ++ ')' :: b)).takeWhile (· ≠ '/')) from by
          rw [List.takeWhile_cons_of_pos (by decide)]]
        simp only [List.isEmpty_cons, if_neg]
        exact ⟨['~'], by simp⟩
      | cons y a2 =>
        by_cases hy : y = '/'
        · subst hy
          rw [List.cons_append,
            List.takeWhile_cons_of_neg (p := fun c => decide (c ≠ '/')) (by simp),
            List.dropWhile_cons_of_neg (p := fun c => decide (c ≠ '/')) (by simp)]
          simp only [List.isEmpty_nil, if_pos]
          cases hl : lookupEnv env "HOME".data with
          | none => exact ⟨'~' :: '/' :: a2, by simp⟩
          | some home =>
            refine ⟨rstripSlash home ++ '/' :: a2, ?_⟩
            simp
        · rw [List.cons_append,
            List.takeWhile_cons_of_pos (p := fun c => decide (c ≠ '/')) (by simpa using hy)]
          simp only [List.isEmpty_cons, if_neg]
          exact ⟨'~' :: y :: a2, by simp⟩
    · refine ⟨x :: a1, ?_⟩
      unfold pyExpanduser
      rw [if_neg (by simp [hx])]

theorem removeCmdSubst_cons_other {c : Char} (hc : c ≠ '$') (r : List Char) :
    removeCmdSubst (c :: r) = c :: removeCmdSubst r := by
  show removeCmdSubstGo (r.length + 1) (c :: r) = _
  simp only [removeCmdSubstGo]
  rw [if_neg (by simp [hc])]
  rfl

/-- A `$`-free string is untouched by the `$(...)`-deletion sub. -/
theorem removeCmdSubst_noDollar (l : List Char) (h : ∀ c ∈ l, c ≠ '$') :
    removeCmdSubst l = l := by
  induction l with
  | nil => rfl
  | cons c r ih =>
    rw [removeCmdSubst_cons_other (h c (by simp)) r,
      ih (fun x hx => h x (by simp [hx]))]

/-- A string with no `$` at all and no leading `~` (and which is not erased
by the empty-input check) is a fixed point of `environment_variable_expand`. -/
theorem environment_variable_expand_fixed (env : Env) (Y : String)
    (h1 : ∀ ch ∈ Y.data, ch ≠ '$')
    (h2 : Y.data.head? ≠ some '~')
    (h3 : Y.data = [] ∨ pyStripL Y.data ≠ []) :
    environment_variable_expand env Y = .ok Y := by
  obtain ⟨d⟩ := Y
  rcases h3 with h3 | h3
  · simp only at h3
    subst h3
    rfl
  · simp only at h1 h2 h3
    have hu : pyExpanduser env d = d := by
      unfold pyExpanduser
      rw [if_neg h2]
    have hany : (removeCmdSubst d).any (fun x => decide (x = '$')) = false := by
      rw [removeCmdSubst_noDollar d h1]
      simp only [List.any_eq_false, decide_eq_true_eq]
      exact h1
    have hne : (pyStripL d).isEmpty = false := by
      cases hsl : pyStripL d with
      | nil => exact absurd hsl h3
      | cons a l => rfl
    simp [environment_variable_expand, hne, hu, expandVars_noDollar env d h1, hany]

/- ------------------------------------------------------------------ -/
/- Claim C5 and C9 theorems                                           -/
/- ------------------------------------------------------------------ -/

/-- **C5, counterexample.**  The claim states that a `$(...)` substring is
preserved byte-for-byte with nothing inside it expanded.  With `HOME`
defined, expanding `"echo $(echo $HOME)"` yields `"echo $(echo /home/u)"`:
the no-op "temporary replacement" leaves the text visible to
`os.path.expandvars`, which substitutes `$HOME` inside the `$(...)`.  The
input contains the substring `$(echo $HOME)`, the successful result does
not. -/
theorem c5_counterexample :
    environment_variable_expand [("HOME", "/home/u")] "echo $(echo $HOME)" =
      .ok "echo $(echo /home/u)" ∧
    (∃ l r, "echo $(echo $HOME)".data = l ++ "$(echo $HOME)".data ++ r) ∧
    ¬ (∃ l r, "echo $(echo /home/u)".data = l ++ "$(echo $HOME)".data ++ r) := by
  refine ⟨by rfl, ⟨"echo ".data, [], by decide⟩, fun h => ?_⟩
  exact absurd ((hasSegB_iff _ _).mpr h) (by decide)

/-- **C5 (amended).**  For every environment whose variable names consist of
word characters only, and every string `X` containing a `$(...)` substring
whose interior contains no `$`, a successful
`environment_variable_expand` returns a string that still contains that
`$(...)` substring byte-for-byte. -/
theorem c5_expand_preserves_command_subst (env : Env) (X Y : String)
    (henv : ∀ p ∈ env, ∀ ch ∈ (Prod.fst p).data, isWordChar ch = true)
    (pre c post : List Char)
    (hX : X.data = pre ++ '$' :: '(' :: (c ++ ')' :: post))
    (hc : ∀ ch ∈ c, ch ≠ '$')
    (hok : environment_variable_expand env X = .ok Y) :
    ∃ l r, Y.data = l ++ '$' :: '(' :: (c ++ ')' :: r) := by
  have hmem : '$' ∈ X.data := by rw [hX]; simp
  have hne : (pyStripL X.data).isEmpty = false := by
    cases hsl : pyStripL X.data with
    | nil => exact absurd hsl (pyStripL_ne_nil hmem (by decide))
    | cons a l => rfl
  obtain ⟨a2, hu⟩ := pyExpanduser_preserves_region env pre c post
  obtain ⟨a3, b3, hv⟩ :=
    expandVars_preserves_region env henv a2.length a2 c post le_rfl hc
  simp only [environment_variable_expand, hne, Bool.false_eq_true,
    if_false] at hok
  rw [hX, hu, hv] at hok
  split at hok
  · cases hok
  · exact ⟨a3, b3, by rw [← Except.ok.inj hok]⟩

/-- **C5 (amended), witness.** -/
theorem c5_expand_preserves_command_subst_witness :
    ∃ l r, "echo $(date)".data = l ++ '$' :: '(' :: ("date".data ++ ')' :: r) :=
  c5_expand_preserves_command_subst [("HOME", "/home/u")]
    "echo $(date)" "echo $(date)" (by decide) "echo ".data "date".data []
    (by decide) (by decide) (by rfl)

/-- **C9, counterexample.**  Idempotence fails: with `FOO = "~"`, expanding
`"$FOO"` succeeds with result `"~"`, but expanding that result again replaces
the now-leading `~` with the home directory, so
`expand (expand "$FOO") ≠ expand "$FOO"`. -/
theorem c9_counterexample :
    environment_variable_expand [("HOME", "/home/u"), ("FOO", "~")] "$FOO" =
      .ok "~" ∧
    environment_variable_expand [("HOME", "/home/u"), ("FOO", "~")] "~" =
      .ok "/home/u" ∧
    ("/home/u" : String) ≠ "~" :=
  ⟨by rfl, by rfl, by decide⟩

/-- **C9 (amended).**  Expansion is idempotent on results that no longer
contain expandable material: if `expand X` succeeds with result `Y`, and `Y`
contains no `$`, does not start with `~`, and is not a nonempty
whitespace-only string, then `expand Y = expand X` (`= .ok Y`). -/
theorem c9_expand_idempotent_on_stable_results (env : Env) (X Y : String)
    (hok : environment_variable_expand env X = .ok Y)
    (h1 : ∀ ch ∈ Y.data, ch ≠ '$')
    (h2 : Y.data.head? ≠ some '~')
    (h3 : Y.data = [] ∨ pyStripL Y.data ≠ []) :
    environment_variable_expand env Y = environment_variable_expand env X := by
  rw [hok]
  exact environment_variable_expand_fixed env Y h1 h2 h3

/-- **C9 (amended), witness.** -/
theorem c9_expand_idempotent_witness :
    environment_variable_expand [("HOME", "/home/u")] "/home/u/ws" =
      environment_variable_expand [("HOME", "/home/u")] "${HOME}/ws" :=
  c9_expand_idempotent_on_stable_results [("HOME", "/home/u")]
    "${HOME}/ws" "/home/u/ws" (by rfl) (by decide) (by decide)
    (Or.inr (by decide))

/- ------------------------------------------------------------------ -/
/- ProgressTracker (common/progress_tracker.py)                       -/
/- ------------------------------------------------------------------ -/

/-- `colorama.Fore.LIGHTBLUE_EX`. -/
def ansiLightBlue : String := "\x1b[94m"
/-- `colorama.Fore.GREEN`. -/
def ansiGreen : String := "\x1b[32m"
/-- `colorama.Fore.LIGHTRED_EX`. -/
def ansiLightRed : String := "\x1b[91m"
/-- `colorama.Fore.LIGHTYELLOW_EX`. -/
def ansiLightYellow : String := "\x1b[93m"
/-- `colorama.Fore.MAGENTA`. -/
def ansiMagenta : String := "\x1b[35m"
/-- `colorama.Style.RESET_ALL`. -/
def ansiReset : String := "\x1b[0m"

/-- After an `ESC`, try to match the rest of the pattern
`\x1B[@-_][0-?]*[ .. /]*[@-~]` (the second class is the range from space to
slash, written here with a gap to keep this comment well formed) and return
the remaining input.  The character classes are pairwise disjoint from the
final `[@-~]`, so greedy matching is exact. -/
def matchAnsiTail : List Char → Option (List Char)
  | [] => none
  | c :: r =>
    if '@' ≤ c && c ≤ '_' then
      let r1 := r.dropWhile (fun x => '0' ≤ x && x ≤ '?')
      let r2 := r1.dropWhile (fun x => ' ' ≤ x && x ≤ '/')
      match r2 with
      | f :: rest => if '@' ≤ f && f ≤ '~' then some rest else none
      | [] => none
    else none

/-- The `ansi_escape.sub('', ...)` of `_pre_format._get_clear_text`
(fuelled scan over the pattern described at `matchAnsiTail`). -/
def stripAnsiSubGo : Nat → List Char → List Char
  | _, [] => []
  | 0, l => l
  | fuel + 1, c :: r =>
    if c = '\x1b' then
      match matchAnsiTail r with
      | some rest => stripAnsiSubGo fuel rest
      | none => c :: stripAnsiSubGo fuel r
    else c :: stripAnsiSubGo fuel r

/-- `_get_clear_text` inside `ProgressTracker._pre_format`: remove ANSI
escape sequences, then `strip()`. -/
def getClearText (l : List Char) : List Char :=
  pyStripL (stripAnsiSubGo l.length l)

/-- `text[-k:]` for `k = max(0, …)`: Python's negative slicing, where `-0`
degenerates to the whole string. -/
def pySliceFromNeg (k : Int) (s : String) : String :=
  if k ≤ 0 then s
  else String.mk (s.data.drop (s.data.length - k.toNat))

/-- `text[:k]` for a non-negative bound. -/
def pySliceTo (k : Int) (s : String) : String :=
  if k ≤ 0 then "" else String.mk (s.data.take k.toNat)

/-- `text[:k]` where `k` may be negative (Python then counts from the
end). -/
def pySliceToIdx (k : Int) (s : String) : String :=
  if k ≥ 0 then String.mk (s.data.take k.toNat)
  else String.mk (s.data.take (((s.data.length : Int) + k).toNat))

/-- `_TrackerState` of `progress_tracker.py` (the spec calls `PRE` "IDLE" /
"PRE_COMPLETE"; `UN_INITIALIZES` only exists before `__init__` finishes and
after `__del__`). -/
inductive TrackerState
  | UN_INITIALIZES
  | PRE
  | BODY
deriving DecidableEq

/-- Construction-time configuration of a `ProgressTracker`. -/
structure TrackerCfg where
  titleLength : Nat
  addTimePrefix : Bool
  minUpdateIntervalMs : Nat
  terminalWidth : Nat
  lingerIntervalMs : Nat := 0
  defaultNewLine : Bool := true
deriving DecidableEq

/-- The mutable state of a `ProgressTracker`. -/
structure Tracker where
  cfg : TrackerCfg
  state : TrackerState
  preText : Option String
  lastUpdateTime : Nat
deriving DecidableEq

/-- `ProgressTracker.__init__`: state ends at `PRE`; the cursor is hidden
when requested (write `\x1b[?25l`). -/
def mkTracker (cfg : TrackerCfg) (hideCursor : Bool) : Tracker × List String :=
  ({ cfg := cfg, state := TrackerState.PRE, preText := none, lastUpdateTime := 0 },
   if hideCursor then ["\x1b[?25l"] else [])

/-- `ProgressTracker._pre_format`.  `timeString` stands for
`datetime.now().strftime("%H:%M:%S ")` (always nine characters); arithmetic
is over `Int` exactly as Python's, with `max(0, ·)` where the source has
it. -/
def preFormat (cfg : TrackerCfg) (timeString : String) (text0 : Option String) :
    String :=
  let text := match text0 with
    | some s => pyStrip s
    | none => ""
  let inputLen : Int := (getClearText text.data).length
  let timeStr := if cfg.addTimePrefix then timeString else ""
  let titleUsable : Int := (cfg.titleLength : Int) - (timeStr.length : Int)
  let step1 :=
    if inputLen > titleUsable then
      let t2 := pySliceFromNeg (max 0 (titleUsable - 4)) text
      (t2, ((getClearText t2.data).length : Int))
    else (text, inputLen)
  let text1 := step1.1
  let inputLen1 := step1.2
  let textLength : Int := (timeStr.length : Int) + inputLen1
  let dotsCount : Int := (cfg.titleLength : Int) - textLength - 2
  let dots := String.mk (List.replicate (max 0 dotsCount).toNat '.')
  let text2 :=
    if textLength > (cfg.titleLength : Int) then
      pySliceTo (max 0 ((cfg.titleLength : Int) - (timeStr.length : Int) - 4)) text1
    else text1
  if cfg.addTimePrefix then
    ansiLightBlue ++ timeStr ++ ansiReset ++ text2 ++ " " ++ dots ++ " "
  else
    text2 ++ " " ++ dots ++ " "

/-- `ProgressTracker.set_pre`.  Returns (return value, new tracker state,
terminal writes in order).  `"\x1b[K"` is `erase_line_to_end`, `"\x1b[s"`
is `save_cursor_position`. -/
def set_pre (t : Tracker) (timeString : String) (text0 : Option String)
    (new_line : Option Bool) : Bool × Tracker × List String :=
  if t.state ≠ TrackerState.PRE then (false, t, [])
  else
    let text := match text0 with
      | some s => pyStrip s
      | none => ""
    let newLine := new_line.getD t.cfg.defaultNewLine
    let formatted := preFormat t.cfg timeString (some text)
    if formatted.length ≥ t.cfg.terminalWidth then (false, t, [])
    else
      (true,
       { t with preText := some text, state := TrackerState.BODY },
       ["\x1b[K", (if newLine then "\n" else "\r") ++ formatted, "\x1b[s"])

/-- `ProgressTracker.set_body_in_place`.  `nowMs` stands for
`time.time() * 1000`. -/
def set_body_in_place (t : Tracker) (timeString : String) (nowMs : Nat)
    (text0 : Option String) (pre_text : Option String) (update_clock : Bool) :
    Bool × Tracker × List String :=
  if t.state ≠ TrackerState.BODY then (false, t, [])
  else
    let text := match text0 with
      | some s => pyStrip s
      | none => ""
    if nowMs - t.lastUpdateTime < t.cfg.minUpdateIntervalMs then (false, t, [])
    else
      let t1 := match pre_text with
        | some p => { t with preText := some p }
        | none => t
      let clockWrites :=
        if update_clock && t1.preText.isSome then
          ["\x1b[u", "\r" ++ preFormat t1.cfg timeString t1.preText, "\x1b[s"]
        else ["\x1b[u"]
      let bodyStart : Int := (pyStrip (preFormat t1.cfg timeString t1.preText)).length
      let maxBody : Int := (t1.cfg.terminalWidth : Int) - bodyStart
      (true, { t1 with lastUpdateTime := nowMs },
       clockWrites ++ [pySliceToIdx maxBody text, "\x1b[K"])

/-- The colour chosen by `ProgressTracker.set_result`: green for status 0,
light red for text starting (case-insensitively) with "error", light yellow
for "warning", magenta otherwise. -/
def resultColor (text : String) (status_code : Option Int) : String :=
  if status_code = some 0 then ansiGreen
  else if leadsList "error".data (pyLowerL (pyStrip text).data) then ansiLightRed
  else if leadsList "warning".data (pyLowerL (pyStrip text).data) then ansiLightYellow
  else ansiMagenta

/-- `ProgressTracker.set_result`. -/
def set_result (t : Tracker) (text0 : Option String) (status_code : Option Int)
    (erase_line_to_end : Bool) : Bool × Tracker × List String :=
  if t.state ≠ TrackerState.BODY then (false, t, [])
  else
    let text := match text0 with
      | some s => pyStrip s
      | none => ""
    let colored :=
      if status_code ≠ none then resultColor text status_code ++ text ++ ansiReset
      else text
    (true,
     { t with preText := none, state := TrackerState.PRE },
     ["\x1b[u", colored] ++ (if erase_line_to_end then ["\x1b[K"] else []))

/-- `ProgressTracker.set_complete_line`: `set_pre` with `new_line := true`,
then `set_result`, short-circuiting on failure. -/
def set_complete_line (t : Tracker) (timeString : String)
    (pre_text result_text : String) (status_code : Option Int) :
    Bool × Tracker × List String :=
  let r1 := set_pre t timeString (some pre_text) (some true)
  if r1.1 then
    let r2 := set_result r1.2.1 (some result_text) status_code true
    (r2.1, r2.2.1, r1.2.2 ++ r2.2.2)
  else (false, r1.2.1, r1.2.2)

/-- `ProgressTracker.set_end`: erase to end of line, newline, show the
cursor. -/
def set_end (t : Tracker) : Tracker × List String :=
  (t, ["\x1b[K", "\n", "\x1b[?25h"])

example : resultColor "Error" (some 1) = ansiLightRed := by rfl
example : resultColor "WARNING" (some 2) = ansiLightYellow := by rfl
example : resultColor "OK" (some 0) = ansiGreen := by rfl
example : resultColor "NO" (some 1) = ansiMagenta := by rfl

/-- **C8.**  The `ProgressTracker` state machine: `set_pre` succeeds only
from the idle state (`PRE` in the source, "IDLE" in the spec) and moves to
the body-updatable state (`BODY`); `set_body_in_place` and `set_result`
succeed only in `BODY`, which is entered only by a successful `set_pre`
(also witnessed by the construction state being `PRE`); `set_result` returns
the tracker to the idle state; any call made out of order returns `false`,
changes nothing, and writes nothing. -/
theorem c8_tracker_state_machine (t : Tracker) (ts : String)
    (txt pt : Option String) (nl : Option Bool) (nowMs : Nat) (uc : Bool)
    (sc : Option Int) (er : Bool) :
    ((set_pre t ts txt nl).1 = true →
        t.state = TrackerState.PRE ∧
        (set_pre t ts txt nl).2.1.state = TrackerState.BODY) ∧
    (t.state ≠ TrackerState.PRE → set_pre t ts txt nl = (false, t, [])) ∧
    ((set_body_in_place t ts nowMs txt pt uc).1 = true →
        t.state = TrackerState.BODY ∧
        (set_body_in_place t ts nowMs txt pt uc).2.1.state = TrackerState.BODY) ∧
    (t.state ≠ TrackerState.BODY →
        set_body_in_place t ts nowMs txt pt uc = (false, t, [])) ∧
    ((set_result t txt sc er).1 = true →
        t.state = TrackerState.BODY ∧
        (set_result t txt sc er).2.1.state = TrackerState.PRE) ∧
    (t.state ≠ TrackerState.BODY → set_result t txt sc er = (false, t, [])) ∧
    (∀ cfg hide, (mkTracker cfg hide).1.state = TrackerState.PRE) := by
  refine ⟨?_, ?_, ?_, ?_, ?_, ?_, fun _ _ => rfl⟩
  · intro h
    simp only [set_pre] at h ⊢
    split_ifs at h ⊢ with h1
    all_goals try cases h
    all_goals exact ⟨not_not.mp h1, rfl⟩
  · intro h1
    simp only [set_pre, if_pos h1]
  · intro h
    simp only [set_body_in_place] at h ⊢
    split_ifs at h ⊢ with h1
    all_goals try cases h
    all_goals exact ⟨not_not.mp h1, by cases pt <;> exact not_not.mp h1⟩
  · intro h1
    simp only [set_body_in_place, if_pos h1]
  · intro h
    simp only [set_result] at h ⊢
    split_ifs at h ⊢ with h1
    all_goals try cases h
    all_goals exact ⟨not_not.mp h1, rfl⟩
  · intro h1
    simp only [set_result, if_pos h1]

def sampleCfg : TrackerCfg :=
  { titleLength := 80, addTimePrefix := true, minUpdateIntervalMs := 200,
    terminalWidth := 120, lingerIntervalMs := 150, defaultNewLine := true }

def sampleBodyTracker : Tracker :=
  { cfg := sampleCfg, state := TrackerState.BODY, preText := some "probe",
    lastUpdateTime := 0 }

/-- **C8, witness.** -/
theorem c8_tracker_state_machine_witness :
    set_pre sampleBodyTracker "12:00:00 " (some "x") none =
      (false, sampleBodyTracker, []) ∧
    sampleBodyTracker.state = TrackerState.BODY ∧
    (set_result sampleBodyTracker (some "OK") (some 0) true).2.1.state =
      TrackerState.PRE :=
  ⟨(c8_tracker_state_machine sampleBodyTracker "12:00:00 " (some "x") none none
      0 true (some 0) true).2.1 (by decide),
   ((c8_tracker_state_machine sampleBodyTracker "12:00:00 " (some "OK") none none
      0 true (some 0) true).2.2.2.2.1 (by rfl)).1,
   ((c8_tracker_state_machine sampleBodyTracker "12:00:00 " (some "OK") none none
      0 true (some 0) true).2.2.2.2.1 (by rfl)).2⟩

/- ------------------------------------------------------------------ -/
/- execute_shell_command (core/platform_tools.py)                     -/
/- ------------------------------------------------------------------ -/

/-- `CommandResultType` (`common/local_types.py`); `extra_data : Any` is not
modelled (none of the embedded operations set it). -/
structure CommandResultType where
  response : Option String := none
  return_code : Int := 1
  message : Option String := none
  command : Option String := some "unknown"
  extra_value : Option Int := none
deriving DecidableEq

/-- The two error shapes `execute_shell_command` can raise:
`CommandFailedException` (carrying a `CommandResultType`) and the built-in
`TimeoutError`. -/
inductive ShellError
  | commandFailed (results : CommandResultType)
  | timeout (msg : String)
deriving DecidableEq

/-- One iteration of the supervisor's poll loop, as observed through
`_is_readable()` / `process.poll()`:

* `ready data` — `select` reported readability and the subsequent
  `os.read` / `stdout.read` returned `data` (at most `max_read_chunk`
  bytes, decoded);
* `exited`   — not readable and `process.poll() is not None`;
* `pending`  — not readable, child still running. -/
inductive PollObs
  | ready (data : List Char)
  | exited
  | pending
deriving DecidableEq

/-- A poll-loop iteration: `now` is `time.time() - start_time` (in whole
seconds) when this iteration checks the timeout. -/
structure PollTick where
  now : Nat
  obs : PollObs
deriving DecidableEq

/-- Everything the child process contributes to one run. -/
structure ChildSpec where
  trace : List PollTick
  returnCode : Int
  /-- `process.wait(timeout=1.0)` after the read loop raised
  `subprocess.TimeoutExpired`. -/
  waitTimesOut : Bool := false
deriving DecidableEq

/-- `deque(maxlen=1024)` append. -/
def pushQueue (q : List String) (s : String) : List String :=
  let q2 := q ++ [s]
  if q2.length > 1024 then q2.drop (q2.length - 1024) else q2

/-- The inner `for b in received_bytes` loop: `b == 0` leaves the rest of
the chunk unread; bytes accumulate into the line buffer; on `\n` or `\r`
the buffer is cleaned (`_decode_and_queue`: `strip_ansi(·, bare_text=True)`
then `strip()`, abstracted as `clean`) and queued when nonempty.
Terminal echo (`echo_type`) and the optional tracker body update write
output only and are not modelled. -/
def processChunk (clean : String → String) :
    List Char → List Char × List String → List Char × List String
  | [], st => st
  | b :: rest, (buf, q) =>
    if b = '\x00' then (buf, q)
    else
      let buf1 := buf ++ [b]
      if b = '\n' || b = '\x0d' then
        let cleanLine := clean (String.mk buf1)
        let q1 := if cleanLine.length > 0 then pushQueue q cleanLine else q
        processChunk clean rest ([], q1)
      else
        processChunk clean rest (buf1, q)

/-- `timeout = self._subprocess_execution_timout if timeout is None else
timeout`. -/
def resolveTimeout (timeout : Option Nat) (defaultTimeout : Nat) : Nat :=
  match timeout with
  | none => defaultTimeout
  | some t => t

/-- `TimeoutError` message of the startup gate. -/
def gateMsg (command : String) (timeout : Nat) : String :=
  "'" ++ command ++ "' did not produce output after " ++ toString timeout ++
    " seconds"

/-- `TimeoutError` message of the read loop. -/
def timeoutMsg (command : String) (timeout : Nat) : String :=
  "'" ++ command ++ "' timed out after " ++ toString timeout ++ " seconds"

/-- Verdict of the `while not output_ready` startup gate. -/
inductive GateResult
  | timedOut
  | earlyExit
  | ready (rest : List PollTick)
  /-- Trace exhausted with no verdict (modelling artefact: the real loop
  would keep polling). -/
  | stuck
deriving DecidableEq

/-- The startup gate: wait until the child produces readable output
(readability is observed without consuming the tick — `select` does not
read) or exits; each iteration first checks the timeout. -/
def startupGate (timeout : Nat) : List PollTick → GateResult
  | [] => .stuck
  | tick :: rest =>
    if timeout > 0 && tick.now > timeout then .timedOut
    else
      match tick.obs with
      | .ready _ => .ready (tick :: rest)
      | .exited => .earlyExit
      | .pending => startupGate timeout rest

/-- Verdict of the main `while True` read loop. -/
inductive LoopResult
  | finished (buf : List Char) (q : List String)
  | timedOut
  | stuck
deriving DecidableEq

/-- The main read loop: readable ticks feed `processChunk`; a non-readable
tick either detects exit (`break`) or, past the deadline, kills the child
and raises `TimeoutError`. -/
def readLoop (clean : String → String) (timeout : Nat) :
    List PollTick → List Char → List String → LoopResult
  | [], _, _ => .stuck
  | tick :: rest, buf, q =>
    match tick.obs with
    | .ready data =>
      let st := processChunk clean data (buf, q)
      readLoop clean timeout rest st.1 st.2
    | .exited => .finished buf q
    | .pending =>
      if timeout > 0 && tick.now > timeout then .timedOut
      else readLoop clean timeout rest buf q

/-- Post-execution flush: `if line_buffer: _decode_and_queue(...)` followed
by `"\n".join(lines_queue)`. -/
def finishResponse (clean : String → String) (buf : List Char)
    (q : List String) : String :=
  let q1 :=
    if buf.isEmpty then q
    else
      let cleanLine := clean (String.mk buf)
      if cleanLine.length > 0 then pushQueue q cleanLine else q
  String.intercalate "\n" q1

/-- What one call to `execute_shell_command` did. -/
structure ShellOutcome where
  result : Except ShellError CommandResultType
  /-- `process.kill()` was called. -/
  killed : Bool
  /-- The PTY master descriptor was closed (the `finally` block). -/
  ptyClosed : Bool
deriving DecidableEq

/-- `str(subprocess.TimeoutExpired(cmd, 1.0))` for the post-loop
`process.wait(timeout=1.0)`. -/
def waitExpiredMsg (command : String) : String :=
  "Command '" ++ command ++ "' timed out after 1.0 seconds"

/-- The non-interactive path of
`CorePlatform.execute_shell_command`, as a function of the poll trace.
`command` is the basename used in messages and in the result; `clean`
abstracts `CoreToolBox.strip_ansi(·, bare_text=True).strip()`.  Returns
`none` when the trace ends without a verdict (never happens for a real
child, which eventually exits).  The full-TTY hand-off branch for
interactive commands and the shell-quoting of the command line are outside
this model. -/
def execute_shell_command (clean : String → String) (defaultTimeout : Nat)
    (command : String) (timeout : Option Nat) (searched_token : Option String)
    (check : Bool) (use_pty : Bool) (child : ChildSpec) :
    Option ShellOutcome :=
  let tout := resolveTimeout timeout defaultTimeout
  match startupGate tout child.trace with
  | .stuck => none
  | .timedOut =>
    some { result := .error (.timeout (gateMsg command tout)),
           killed := false, ptyClosed := use_pty }
  | .earlyExit =>
    -- `return CommandResultType(response=None, return_code=process.returncode)`
    -- (no `check` on this path)
    some { result := .ok { response := none, return_code := child.returnCode },
           killed := false, ptyClosed := use_pty }
  | .ready ticks =>
    match readLoop clean tout ticks [] [] with
    | .stuck => none
    | .timedOut =>
      some { result := .error (.timeout (timeoutMsg command tout)),
             killed := true, ptyClosed := use_pty }
    | .finished buf q =>
      if child.waitTimesOut then
        some { result := .error (.commandFailed
                 { response := none, return_code := -9,
                   message := some (waitExpiredMsg command),
                   command := some command }),
               killed := true, ptyClosed := use_pty }
      else
        let response := finishResponse clean buf q
        let rc := child.returnCode
        let results : CommandResultType :=
          { response := some response, return_code := rc,
            command := some command }
        let rcMsg := "Child process exited with non zero return code " ++ toString rc
        if check && rc ≠ 0 then
          some { result := .error (.commandFailed { results with message := some rcMsg }),
                 killed := false, ptyClosed := use_pty }
        else
          match searched_token with
          | some tok =>
            let tokMsg := "Token '" ++ tok ++ "' not found in response"
            if tok ≠ "" && response ≠ "" && !(hasSegB tok.data response.data) then
              some { result := .error (.commandFailed { results with message := some tokMsg }),
                     killed := false, ptyClosed := use_pty }
            else
              some { result := .ok results, killed := false, ptyClosed := use_pty }
          | none =>
            some { result := .ok results, killed := false, ptyClosed := use_pty }

theorem startupGate_zero_ne_timedOut :
    ∀ tr : List PollTick, startupGate 0 tr ≠ .timedOut := by
  intro tr
  induction tr with
  | nil => simp [startupGate]
  | cons tick rest ih =>
    simp only [startupGate]
    rw [if_neg (by simp)]
    cases tick.obs <;> simp [ih]

theorem readLoop_zero_ne_timedOut (clean : String → String) :
    ∀ (tr : List PollTick) (buf : List Char) (q : List String),
      readLoop clean 0 tr buf q ≠ .timedOut := by
  intro tr
  induction tr with
  | nil => intro buf q; simp [readLoop]
  | cons tick rest ih =>
    intro buf q
    simp only [readLoop]
    cases tick.obs with
    | ready data => exact ih _ _
    | exited => simp
    | pending =>
      rw [if_neg (by simp)]
      exact ih _ _

/-- Projection helpers used to read components out of a computed
`Except`-result. -/
def rcOf (d : Int) : Except ShellError CommandResultType → Int
  | .ok v => v.return_code
  | .error _ => d

def respOf : Except ShellError CommandResultType → Option String
  | .ok v => v.response
  | .error _ => none

/-- **C2, counterexample.**  A child that exits with return code 1 before
producing any output makes `execute_shell_command` (with `check` set)
return a plain `CommandResultType{response=None, return_code=1}` — the
startup gate's early-return path performs no `check` —, not a
`CommandFailed` error, contradicting the claim precisely in the case it
singles out. -/
theorem c2_counterexample :
    execute_shell_command pyStrip 60 "false" none none true true
        { trace := [⟨0, .exited⟩], returnCode := 1 } =
      some { result := .ok { response := none, return_code := 1 },
             killed := false, ptyClosed := true } ∧
    (1 : Int) ≠ 0 ∧
    (∀ e : ShellError,
      (Except.ok ({ response := none, return_code := 1 } : CommandResultType) :
          Except ShellError CommandResultType) ≠ .error e) :=
  ⟨by rfl, by decide, fun e h => by cases h⟩

/-- **C2 (amended).**  With `check` set: a failed child surfaces as a
structured `CommandFailed` carrying the `CommandResult` whenever the run
reaches the post-execution phase; the single exception is a child that
exits before producing any output, which is returned as a plain
`{response: None, return_code}` result (the spec's own boundary-behaviour
sentence).  Equivalently, every plain result returned for a non-zero exit
code has `response = None`. -/
theorem c2_check_failure_surfaces (clean : String → String) (dT : Nat)
    (cmd : String) (timeout : Option Nat) (tok : Option String) (pty : Bool)
    (child : ChildSpec) :
    (∀ o r, execute_shell_command clean dT cmd timeout tok true pty child =
        some o → o.result = .ok r → r.return_code ≠ 0 → r.response = none) ∧
    (∀ ticks buf q,
        startupGate (resolveTimeout timeout dT) child.trace = .ready ticks →
        readLoop clean (resolveTimeout timeout dT) ticks [] [] =
          .finished buf q →
        child.waitTimesOut = false → child.returnCode ≠ 0 →
        ∃ res, execute_shell_command clean dT cmd timeout tok true pty child =
            some { result := .error (.commandFailed res), killed := false,
                   ptyClosed := pty } ∧
          res.return_code = child.returnCode ∧ res.message ≠ none) := by
  constructor
  · intro o r ho hr hrc
    cases hg : startupGate (resolveTimeout timeout dT) child.trace with
    | stuck =>
      simp only [execute_shell_command, hg] at ho
      cases ho
    | timedOut =>
      simp only [execute_shell_command, hg] at ho
      rw [← Option.some.inj ho] at hr
      exact absurd hr (by simp)
    | earlyExit =>
      simp only [execute_shell_command, hg] at ho
      rw [← Option.some.inj ho] at hr
      have h3 : (none : Option String) = r.response := congrArg respOf hr
      exact h3.symm
    | ready ticks =>
      cases hlp : readLoop clean (resolveTimeout timeout dT) ticks [] [] with
      | stuck =>
        simp only [execute_shell_command, hg, hlp] at ho
        cases ho
      | timedOut =>
        simp only [execute_shell_command, hg, hlp] at ho
        rw [← Option.some.inj ho] at hr
        exact absurd hr (by simp)
      | finished buf q =>
        simp only [execute_shell_command, hg, hlp] at ho
        by_cases hwt : child.waitTimesOut = true
        · rw [if_pos hwt] at ho
          rw [← Option.some.inj ho] at hr
          exact absurd hr (by simp)
        · rw [if_neg hwt] at ho
          by_cases hrc0 : child.returnCode = 0
          · rw [if_neg (by simp [hrc0])] at ho
            have key : child.returnCode = r.return_code := by
              repeat split at ho
              all_goals rw [← Option.some.inj ho] at hr
              all_goals exact congrArg (rcOf child.returnCode) hr
            rw [hrc0] at key
            exact absurd key.symm hrc
          · rw [if_pos (by simp [hrc0])] at ho
            rw [← Option.some.inj ho] at hr
            exact absurd hr (by simp)
  · intro ticks buf q hg hl hw hrc
    simp only [execute_shell_command, hg, hl, hw]
    rw [if_neg (by simp [hw])]
    rw [if_pos (by simp [hrc])]
    exact ⟨_, rfl, rfl, by simp⟩

/-- **C2 (amended), witness.** -/
theorem c2_check_failure_surfaces_witness :
    ∃ res, execute_shell_command pyStrip 60 "make" none none true true
        { trace := [⟨0, .ready "x\n".data⟩, ⟨1, .exited⟩], returnCode := 2 } =
        some { result := .error (.commandFailed res), killed := false,
               ptyClosed := true } ∧
      res.return_code = 2 ∧ res.message ≠ none :=
  (c2_check_failure_surfaces pyStrip 60 "make" none none true
      { trace := [⟨0, .ready "x\n".data⟩, ⟨1, .exited⟩], returnCode := 2 }).2
    [⟨0, .ready "x\n".data⟩, ⟨1, .exited⟩] [] ["x"] (by rfl) (by rfl) rfl
    (by decide)

/-- **C7, counterexample.**  A subprocess exceeding its timeout is killed
and the PTY master is closed, and the raised error's message does contain
"timed out after 1 seconds" — but the error is the built-in `TimeoutError`
raised inside the read loop (`raise TimeoutError(...)`), not a
`CommandFailed`: the only `CommandFailedException` on a timeout path is the
one for `process.wait(timeout=1.0)` after the loop has already ended. -/
theorem c7_counterexample :
    execute_shell_command pyStrip 60 "sleep" (some 1) none true true
        { trace := [⟨0, .ready "x\n".data⟩, ⟨2, .pending⟩], returnCode := 0 } =
      some { result := .error (.timeout "'sleep' timed out after 1 seconds"),
             killed := true, ptyClosed := true } ∧
    (∀ res : CommandResultType,
      (Except.error (ShellError.timeout "'sleep' timed out after 1 seconds") :
          Except ShellError CommandResultType) ≠
        .error (.commandFailed res)) :=
  ⟨by rfl, fun res h => by
    exact absurd (Except.error.inj h) (by intro hc; cases hc)⟩

/-- **C7 (amended).**  When the read loop observes the deadline exceeded,
the child is killed, the PTY master is closed, and the call fails with a
`Timeout` (`TimeoutError`) — not `CommandFailed` — whose message contains
"timed out after <timeout> seconds"; `timeout = 0` disables the timeout
entirely; `timeout = None` falls back to the configurable default. -/
theorem c7_timeout_behavior (clean : String → String) (dT : Nat)
    (cmd : String) (timeout : Option Nat) (tok : Option String) (check : Bool)
    (pty : Bool) (child : ChildSpec) :
    (∀ ticks,
        startupGate (resolveTimeout timeout dT) child.trace = .ready ticks →
        readLoop clean (resolveTimeout timeout dT) ticks [] [] = .timedOut →
        execute_shell_command clean dT cmd timeout tok check pty child =
          some { result := .error (.timeout
                   (timeoutMsg cmd (resolveTimeout timeout dT))),
                 killed := true, ptyClosed := pty } ∧
        ∃ l r, (timeoutMsg cmd (resolveTimeout timeout dT)).data =
          l ++ ("timed out after " ++ toString (resolveTimeout timeout dT) ++
            " seconds").data ++ r) ∧
    (∀ o msg, execute_shell_command clean dT cmd (some 0) tok check pty child =
        some o → o.result ≠ .error (.timeout msg)) ∧
    resolveTimeout none dT = dT := by
  refine ⟨?_, ?_, rfl⟩
  · intro ticks hg hl
    constructor
    · simp only [execute_shell_command, hg, hl]
    · refine ⟨("'" ++ cmd ++ "' ").data, [], ?_⟩
      show ("'" ++ cmd ++ "' timed out after " ++
        toString (resolveTimeout timeout dT) ++ " seconds").data = _
      simp [timeoutMsg]
  · intro o msg ho hres
    cases hg : startupGate (resolveTimeout (some 0) dT) child.trace with
    | stuck =>
      simp only [execute_shell_command, hg] at ho
      cases ho
    | timedOut =>
      exact absurd hg (startupGate_zero_ne_timedOut child.trace)
    | earlyExit =>
      simp only [execute_shell_command, hg] at ho
      rw [← Option.some.inj ho] at hres
      exact absurd hres (by simp)
    | ready ticks =>
      cases hlp : readLoop clean (resolveTimeout (some 0) dT) ticks [] [] with
      | stuck =>
        simp only [execute_shell_command, hg, hlp] at ho
        cases ho
      | timedOut =>
        exact absurd hlp (readLoop_zero_ne_timedOut clean ticks [] [])
      | finished buf q =>
        simp only [execute_shell_command, hg, hlp] at ho
        repeat' split at ho
        all_goals rw [← Option.some.inj ho] at hres
        all_goals exact absurd hres (by simp)

/-- **C7 (amended), witness.** -/
theorem c7_timeout_behavior_witness :
    execute_shell_command pyStrip 60 "sleep" (some 1) none true true
        { trace := [⟨0, .ready "x\n".data⟩, ⟨2, .pending⟩], returnCode := 0 } =
      some { result := .error (.timeout (timeoutMsg "sleep" 1)),
             killed := true, ptyClosed := true } ∧
    ∃ l r, (timeoutMsg "sleep" 1).data =
      l ++ "timed out after 1 seconds".data ++ r :=
  (c7_timeout_behavior pyStrip 60 "sleep" (some 1) none true true
      { trace := [⟨0, .ready "x\n".data⟩, ⟨2, .pending⟩], returnCode := 0 }).1
    [⟨0, .ready "x\n".data⟩, ⟨2, .pending⟩] (by rfl) (by rfl)

/- ------------------------------------------------------------------ -/
/- path_erase (core/platform_tools.py)                                -/
/- ------------------------------------------------------------------ -/

/-- The file-system facts `path_erase` consults: `os.path.exists` and
whether `os.listdir` returns a non-empty listing. -/
structure FSView where
  pathExists : String → Bool
  listNonEmpty : String → Bool

/-- Outcome of `path_erase`: either a silent return, one of its three
refusal exceptions, or removal. -/
inductive EraseResult
  | notFoundOk
  | errNotFound
  | errHighLevel
  | errProtected
  | errNotEmpty
  | removed
deriving DecidableEq

/-- `path.count(os.sep)`. -/
def countSep (path : String) : Nat := path.data.count '/'

/-- `CorePlatform.path_erase` over an abstract file system.  `expandedPath`
stands for `self._variables.expand(key=path)` (the variable store lives
outside `src/`; the expansion result is therefore an input).  `home` stands
for `os.path.expanduser("~")`, assumed absolute and normalized so that
`os.path.abspath` is the identity on the three protected paths and
`os.path.join(home, d) = home ++ "/" ++ d`.  The checks appear in source
order; the second component records whether `shutil.rmtree` ran (the final
`if os.path.exists(path)` guard re-tests the raw path). -/
def path_erase (fs : FSView) (home : String) (path expandedPath : String)
    (allow_non_empty : Bool) (raise_exception_if_not_exist : Bool) :
    EraseResult × Bool :=
  if !(fs.pathExists expandedPath) then
    (if raise_exception_if_not_exist then (.errNotFound, false)
     else (.notFoundOk, false))
  else if countSep path < 2 then (.errHighLevel, false)
  else if expandedPath = home ∨ expandedPath = home ++ "/Documents" ∨
      expandedPath = home ++ "/Desktop" then (.errProtected, false)
  else if !allow_non_empty && fs.listNonEmpty path then (.errNotEmpty, false)
  else (.removed, fs.pathExists path)

/-- **C6.**  `path_erase` refuses to delete — raising an error and invoking
no removal — whenever the (existing) target equals the home directory,
`$HOME/Documents`, or `$HOME/Desktop`, or has fewer than two separators;
and an existing non-empty directory is refused unless `allow_non_empty` is
set. -/
theorem c6_path_erase_protections (fs : FSView) (home path : String)
    (allow_non_empty rie : Bool) (hex : fs.pathExists path = true) :
    (countSep path < 2 →
      path_erase fs home path path allow_non_empty rie = (.errHighLevel, false)) ∧
    ((path = home ∨ path = home ++ "/Documents" ∨ path = home ++ "/Desktop") →
      ((path_erase fs home path path allow_non_empty rie).1 = .errHighLevel ∨
        (path_erase fs home path path allow_non_empty rie).1 = .errProtected) ∧
      (path_erase fs home path path allow_non_empty rie).2 = false) ∧
    (fs.listNonEmpty path = true → allow_non_empty = false →
      ((path_erase fs home path path allow_non_empty rie).1 = .errHighLevel ∨
        (path_erase fs home path path allow_non_empty rie).1 = .errProtected ∨
        (path_erase fs home path path allow_non_empty rie).1 = .errNotEmpty) ∧
      (path_erase fs home path path allow_non_empty rie).2 = false) := by
  refine ⟨?_, ?_, ?_⟩
  · intro hsep
    unfold path_erase
    rw [if_neg (by simp [hex]), if_pos hsep]
  · intro hprot
    unfold path_erase
    rw [if_neg (by simp [hex])]
    by_cases hsep : countSep path < 2
    · rw [if_pos hsep]
      exact ⟨Or.inl rfl, rfl⟩
    · rw [if_neg hsep, if_pos hprot]
      exact ⟨Or.inr rfl, rfl⟩
  · intro hne hallow
    unfold path_erase
    rw [if_neg (by simp [hex])]
    by_cases hsep : countSep path < 2
    · rw [if_pos hsep]
      exact ⟨Or.inl rfl, rfl⟩
    · rw [if_neg hsep]
      by_cases hprot : path = home ∨ path = home ++ "/Documents" ∨
          path = home ++ "/Desktop"
      · rw [if_pos hprot]
        exact ⟨Or.inr (Or.inl rfl), rfl⟩
      · rw [if_neg hprot, if_pos (by simp [hallow, hne])]
        exact ⟨Or.inr (Or.inr rfl), rfl⟩

/-- **C6, witness**: erasing `/home/u` itself is refused as protected with
the file system untouched. -/
theorem c6_path_erase_protections_witness :
    ((path_erase ⟨fun s => s = "/home/u", fun _ => true⟩ "/home/u"
        "/home/u" "/home/u" false false).1 = .errHighLevel ∨
      (path_erase ⟨fun s => s = "/home/u", fun _ => true⟩ "/home/u"
        "/home/u" "/home/u" false false).1 = .errProtected) ∧
    (path_erase ⟨fun s => s = "/home/u", fun _ => true⟩ "/home/u"
      "/home/u" "/home/u" false false).2 = false :=
  (c6_path_erase_protections ⟨fun s => s = "/home/u", fun _ => true⟩
      "/home/u" "/home/u" false false (by decide)).2.1 (Or.inl rfl)

/- ------------------------------------------------------------------ -/
/- validate_prerequisite (core/environment.py)                        -/
/- ------------------------------------------------------------------ -/

def isDigitCh (c : Char) : Bool := '0' ≤ c && c ≤ '9'

/-- Branch `[-+]?\d*\.\d+` of `_extract_decimal`'s regex, anchored at the
current position. -/
def matchDottedAt (l : List Char) : Option (List Char) :=
  let sl := match l with
    | c :: r => if c = '-' ∨ c = '+' then ([c], r) else (([] : List Char), l)
    | [] => ([], [])
  let intPart := sl.2.takeWhile isDigitCh
  let l2 := sl.2.dropWhile isDigitCh
  match l2 with
  | '.' :: l3 =>
    let frac := l3.takeWhile isDigitCh
    if frac.isEmpty then none else some (sl.1 ++ intPart ++ '.' :: frac)
  | _ => none

/-- The regex alternation `([-+]?\d*\.\d+|\d+)` at one position: the dotted
branch is preferred; otherwise a plain digit run. -/
def matchNumberAt (l : List Char) : Option (List Char) :=
  match matchDottedAt l with
  | some tok => some tok
  | none =>
    match l with
    | c :: _ => if isDigitCh c then some (l.takeWhile isDigitCh) else none
    | [] => none

/-- `re.search`: first position (left to right) where the pattern
matches. -/
def firstNumber : List Char → Option (List Char)
  | [] => none
  | c :: r =>
    match matchNumberAt (c :: r) with
    | some tok => some tok
    | none => firstNumber r

def digitsToNat (l : List Char) : Nat :=
  l.foldl (fun acc c => acc * 10 + (c.toNat - '0'.toNat)) 0

/-- The exact value of a matched decimal token, as an integer numerator
over a power-of-ten denominator (`float(number_str)`; Python's `is_integer`
→ `int` conversion does not change the numeric value, and binary-float
rounding is exact at the precision of version strings). -/
structure DecValue where
  num : Int
  den : Nat
deriving DecidableEq

/-- Numeric strict comparison of two decimal values
(cross-multiplication). -/
def decLt (a b : DecValue) : Bool := a.num * (b.den : Int) < b.num * (a.den : Int)

/-- Numeric value of a token matched by `matchNumberAt`. -/
def parseDecimal (tok : List Char) : DecValue :=
  let neg := tok.head? = some '-'
  let body := if tok.head? = some '-' || tok.head? = some '+' then tok.tail else tok
  let intPart := body.takeWhile (fun c => c ≠ '.')
  let frac := (body.dropWhile (fun c => c ≠ '.')).tail
  let mag : Nat := digitsToNat intPart * 10 ^ frac.length + digitsToNat frac
  { num := if neg then -(mag : Int) else (mag : Int), den := 10 ^ frac.length }

/-- `CoreEnvironment._extract_decimal` with the default
`treat_no_decimal_as_zero=True`: the first decimal or integer token of the
text, or `0` when there is none. -/
def extract_decimal (text : List Char) : DecValue :=
  match firstNumber text with
  | none => { num := 0, den := 1 }
  | some tok => parseDecimal tok

example : extract_decimal ">=3.16".data = { num := 316, den := 100 } := by decide
example : extract_decimal "Python 2.0.0".data = { num := 20, den := 10 } := by decide
example : decLt (extract_decimal "version 3.4".data)
    (extract_decimal ">=3.16".data) = false := by decide

/-- The exception raised inside `validate_prerequisite`'s `try` body. -/
inductive ValidateErr
  | shellFailed
  | noOutput
  | versionTooLow (expected actual : DecValue)
  | responseNotFound (expected : String)
deriving DecidableEq

/-- The `try` body of `CoreEnvironment.validate_prerequisite` for
`EXECUTE_PROCESS`: an error value carries the exception together with the
value of `command_response` at the moment of the raise.  `shellResult` is
the outcome of `self.execute_shell_command(...)`. -/
def validate_prerequisite_body (shellResult : Except Unit String)
    (expected_response : Option String) (allow_greater_decimal : Bool) :
    Except (ValidateErr × Option String) (Option String) :=
  match shellResult with
  | .error _ => .error (.shellFailed, none)
  | .ok resp =>
    match expected_response with
    | none => .ok (some resp)
    | some e =>
      if e = "" then .ok (some resp)
      else if allow_greater_decimal then
        let actual := extract_decimal resp.data
        let expected := extract_decimal e.data
        if decLt actual expected then
          .error (.versionTooLow expected actual, some resp)
        else .ok (some resp)
      else
        if hasSegB (pyLowerL e.data) (pyLowerL resp.data) then .ok (some resp)
        else .error (.responseNotFound e, some resp)

/-- `CoreEnvironment.validate_prerequisite` (EXECUTE_PROCESS branch):
because the function ends in `finally: return command_response`, every
exception raised in the body — including the version-mismatch one and the
one propagated from `execute_shell_command` — is discarded, and the caller
receives `command_response` as a normal return value. -/
def validate_prerequisite (shellResult : Except Unit String)
    (expected_response : Option String) (allow_greater_decimal : Bool) :
    Option String :=
  match validate_prerequisite_body shellResult expected_response
      allow_greater_decimal with
  | .ok r => r
  | .error e => e.2

/-- `Modelled from the spec:` the `VersionCompare` helper
(`common/version_compare.py` is not under `src/`; only its import and call
sites are):  "The detected version is extracted from arbitrary command
output by matching the first dotted-numeric token.  Comparison is
lexicographic over numeric components with missing trailing components
treated as zero."  Components of the first dotted-numeric token. -/
def splitOnDot : List Char → List (List Char)
  | [] => [[]]
  | c :: r =>
    if c = '.' then [] :: splitOnDot r
    else
      match splitOnDot r with
      | h :: t => (c :: h) :: t
      | [] => [[c]]

def versionComponents (text : List Char) : List Nat :=
  let tok := (text.dropWhile (fun c => !(isDigitCh c))).takeWhile
    (fun c => isDigitCh c || c = '.')
  (splitOnDot tok).map digitsToNat

/-- `Modelled from the spec:` component-wise (lexicographic, zero-padded)
`detected ≥ expected`. -/
def specVersionGEAux : List Nat → List Nat → Bool
  | [], _ => true
  | _ :: _, [] => true
  | d :: ds, e :: es =>
    if d > e then true
    else if d < e then false
    else specVersionGEAux ds es

def specVersionGE (d e : List Nat) : Bool :=
  let n := max d.length e.length
  specVersionGEAux (d ++ List.replicate (n - d.length) 0)
    (e ++ List.replicate (n - e.length) 0)

/-- **C3 (code bug).**  The claim describes the intended behaviour; the
code of `CoreEnvironment.validate_prerequisite` diverges twice.  (1) Its
`finally: return command_response` swallows every exception, so a detected
version lower than required (here 2.0 against ">=3.0") still returns the
command output as a success — contradicting the function's own docstring
"any error will raise an exception".  (2) Internally it compares the first
`x.y` tokens as floats, not component-wise: "3.4" against ">=3.16" passes
(3.4 > 3.16 as numbers) although the spec's component-wise rule ([3,4] <
[3,16]) demands failure. -/
theorem c3_validate_prerequisite_code_bug :
    validate_prerequisite_body (.ok "Python 2.0.0") (some ">=3.0") true =
      .error (.versionTooLow ⟨30, 10⟩ ⟨20, 10⟩, some "Python 2.0.0") ∧
    validate_prerequisite (.ok "Python 2.0.0") (some ">=3.0") true =
      some "Python 2.0.0" ∧
    validate_prerequisite_body (.ok "version 3.4") (some ">=3.16") true =
      .ok (some "version 3.4") ∧
    specVersionGE (versionComponents "version 3.4".data)
      (versionComponents ">=3.16".data) = false := by
  exact ⟨by decide, by rfl, by decide, by rfl⟩

/- ------------------------------------------------------------------ -/
/- auto_forge_main (auto_forge.py)                                    -/
/- ------------------------------------------------------------------ -/

/-- How a run of the console entry point ends: the early `-v` exit, a
normal return from `auto_forge.forge()`, an exception reaching the outer
handler, or a `KeyboardInterrupt`. -/
inductive RunOutcome
  | versionFlag
  | forgeReturns (code : Int)
  | runtimeError
  | keyboardInterrupt
deriving DecidableEq

/-- `auto_forge_main`: `result` starts at 1 ("Default to internal error");
the `-v` flag exits 0; a completed run returns `forge()`'s value; both the
`KeyboardInterrupt` and the generic `Exception` handlers print and fall
through to the final `return result`. -/
def auto_forge_main (outcome : RunOutcome) : Int :=
  let result : Int := 1
  match outcome with
  | .versionFlag => 0
  | .forgeReturns code => code
  | .runtimeError => result
  | .keyboardInterrupt => result

/-- **C10, counterexample.**  A keyboard interrupt makes `auto_forge_main`
return 1 (the initial "internal error" value reached by falling through the
`except KeyboardInterrupt` handler), not 130; no `130` exists anywhere in
the source. -/
theorem c10_counterexample :
    auto_forge_main .keyboardInterrupt = 1 ∧ (1 : Int) ≠ 130 :=
  ⟨rfl, by decide⟩

/-- **C10 (amended).**  The entry point returns 0 on success (a run whose
`forge()` returns 0, or the `-v` early exit), 1 on runtime error, and 1 —
the same internal-error code, not 130 — on keyboard interrupt. -/
theorem c10_exit_codes :
    auto_forge_main (.forgeReturns 0) = 0 ∧
    auto_forge_main .versionFlag = 0 ∧
    auto_forge_main .runtimeError = 1 ∧
    auto_forge_main .keyboardInterrupt = 1 :=
  ⟨rfl, rfl, rfl, rfl⟩

/- ------------------------------------------------------------------ -/
/- run_sequence and _handle_conditional_step (core/platform_tools.py) -/
/- ------------------------------------------------------------------ -/

/-- Helper: `set_pre` returning `true` leaves the tracker in `BODY`. -/
theorem set_pre_state_of_true {t : Tracker} {ts : String} {txt : Option String}
    {nl : Option Bool} (h : (set_pre t ts txt nl).1 = true) :
    (set_pre t ts txt nl).2.1.state = TrackerState.BODY := by
  simp only [set_pre] at h ⊢
  split_ifs at h ⊢
  all_goals try cases h
  all_goals rfl

/-- Helper: `set_result` on a tracker in `BODY`, with a text and a status
code, fully evaluated. -/
theorem set_result_body_eq {t : Tracker} (h : t.state = TrackerState.BODY)
    (txt : String) (sc : Int) :
    set_result t (some txt) (some sc) true =
      (true, { t with preText := none, state := TrackerState.PRE },
       ["\x1b[u", resultColor (pyStrip txt) (some sc) ++ pyStrip txt ++ ansiReset,
        "\x1b[K"]) := by
  simp only [set_result, h]
  rfl

/-- One inline step of a conditional block (an entry of `if_false` /
`if_true`): its `description` and `method` keys; `arguments` and the
method's behaviour are abstracted by the `ex` oracle passed to
`run_inline_steps`. -/
structure InlineStep where
  description : Option String := none
  method : Option String := none
deriving DecidableEq

/-- `_run_inline_steps` (platform_tools.py:302-322).  `ex` abstracts
`execute_python_method`: `Except.error e` models a raised exception with
message `e`, `Except.ok none` a `None` return (whose `.return_code` access
then raises `AttributeError`), `Except.ok (some r)` a returned result
object.  For each sub-step: `set_pre(description, new_line=True)`; on a
result with non-zero `return_code` a `RuntimeError("Inline step failed:
...")` is raised; any exception is caught, `set_result("FAILED", 1)` is
issued and the error is re-raised wrapped in the "Failed inline step i+1
inside conditional block at step n+1" message; on success
`set_result("OK", 0)` is issued and the loop continues, returning the last
result. -/
def run_inline_steps (ex : InlineStep → Except String (Option CommandResultType))
    (ts : String) (parent_step_number : Nat) :
    List InlineStep → Nat → Option CommandResultType → Tracker →
    Tracker × List String × Except String (Option CommandResultType)
  | [], _, last, t => (t, [], Except.ok last)
  | sub :: rest, i, _, t =>
    let p := set_pre t ts sub.description (some true)
    let wrap : String → Tracker × List String × Except String (Option CommandResultType) :=
      fun err =>
        let q := set_result p.2.1 (some "FAILED") (some 1) true
        (q.2.1, p.2.2 ++ q.2.2,
         Except.error ("Failed inline step " ++ toString (i + 1) ++
           " inside conditional block at step " ++
           toString (parent_step_number + 1) ++ ": " ++ err))
    match ex sub with
    | Except.error e => wrap e
    | Except.ok none => wrap "'NoneType' object has no attribute 'return_code'"
    | Except.ok (some r) =>
      if r.return_code ≠ 0 then
        wrap ("Inline step failed: " ++
          (match sub.description with | some d => d | none => "None"))
      else
        let q := set_result p.2.1 (some "OK") (some 0) true
        let k := run_inline_steps ex ts parent_step_number rest (i + 1) (some r) q.2.1
        (k.1, p.2.2 ++ q.2.2 ++ k.2.1, k.2.2)

/-- `_handle_conditional_step` (platform_tools.py:285-346).
`condition_present` models the `if not condition` truthiness check;
`condResult` abstracts the quiet `execute_python_method` call on the
expanded condition (`none` models a `None` return, whose `.return_code`
access raises `AttributeError`).  A passing condition with a non-empty
`if_true` block raises `NotImplementedError`; a passing condition with no
`if_true` block returns the condition result; a failing condition with no
`if_false` block raises `RuntimeError`; otherwise `set_result("NO", 1)` is
issued and the `if_false` inline steps run.  The returned triple is
(tracker, terminal writes, raised error or returned result). -/
def handle_conditional_step
    (ex : InlineStep → Except String (Option CommandResultType))
    (ts : String) (condition_present : Bool)
    (condResult : Option CommandResultType)
    (if_true_steps if_false_steps : List InlineStep)
    (step_number : Nat) (t : Tracker) :
    Tracker × List String × Except String (Option CommandResultType) :=
  if ¬ condition_present then
    (t, [],
     Except.error ("Missing 'condition' in conditional step at index " ++
       toString step_number))
  else
    match condResult with
    | none =>
      (t, [], Except.error "'NoneType' object has no attribute 'return_code'")
    | some result =>
      if result.return_code = 0 then
        if ¬ if_true_steps.isEmpty then
          (t, [],
           Except.error ("'if_true' block is not yet supported in step " ++
             toString (step_number + 1)))
        else (t, [], Except.ok (some result))
      else
        if if_false_steps.isEmpty then
          (t, [],
           Except.error ("Condition failed in step " ++ toString (step_number + 1) ++
             ", but no 'if_false' steps were defined."))
        else
          let q := set_result t (some "NO") (some 1) true
          let k := run_inline_steps ex ts step_number if_false_steps 0 none q.2.1
          (k.1, q.2.2 ++ k.2.1, k.2.2)

/-- Helper: when every inline step's method call returns a result with
`return_code = 0`, `run_inline_steps` returns `Except.ok`. -/
theorem run_inline_steps_ok (ex : InlineStep → Except String (Option CommandResultType))
    (ts : String) (pn : Nat) (subs : List InlineStep) :
    ∀ (i : Nat) (last : Option CommandResultType) (t : Tracker),
      (∀ s ∈ subs, ∃ r, ex s = Except.ok (some r) ∧ r.return_code = 0) →
      ∃ res, (run_inline_steps ex ts pn subs i last t).2.2 = Except.ok res := by
  induction subs with
  | nil => exact fun i last t _ => ⟨last, rfl⟩
  | cons sub rest ih =>
    intro i last t h
    obtain ⟨r, hr, hrc⟩ := h sub (List.mem_cons_self sub rest)
    have hrest : ∀ s ∈ rest, ∃ r2, ex s = Except.ok (some r2) ∧ r2.return_code = 0 :=
      fun s hs => h s (List.mem_cons_of_mem sub hs)
    simp only [run_inline_steps, hr, hrc, ne_eq, not_true_eq_false, if_false,
      ite_false, not_false_eq_true, ite_true]
    exact ih (i + 1) (some r) _ hrest

/-- A result object with `return_code = 0` (a passing condition, and the
result every successful inline method returns below). -/
def condPassResult : CommandResultType := { return_code := 0 }

/-- A result object with `return_code = 1` (a failing condition). -/
def condFailResult : CommandResultType := { return_code := 1 }

/-- A concrete inline step. -/
def inlineOkStep : InlineStep := { description := some "install package", method := some "run" }

/-- An oracle under which every inline method call succeeds with
`return_code = 0`. -/
def execInlineOk : InlineStep → Except String (Option CommandResultType) :=
  fun _ => Except.ok (some condPassResult)

/-- **C4, counterexample.**  Two divergences from the claim: the
conditional line's "NO" is written with `status_code = 1` and the text "NO"
matches neither the "error" nor the "warning" prefix, so `set_result`
colours it MAGENTA, not red; and a passing condition does not "simply
continue" when an `if_true` block is present — `_handle_conditional_step`
raises `NotImplementedError` instead. -/
theorem c4_counterexample :
    resultColor "NO" (some 1) = ansiMagenta ∧
    ansiMagenta ≠ ansiLightRed ∧
    (handle_conditional_step execInlineOk "12:00:00 " true (some condPassResult)
        [inlineOkStep] [] 3 sampleBodyTracker).2.2 =
      Except.error "'if_true' block is not yet supported in step 4" :=
  ⟨rfl, by decide, rfl⟩

/-- **C4 (amended).**  With the condition present: if the condition result
has `return_code = 0` and no `if_true` block exists, the handler returns
the condition result unchanged (the sequence continues); if it is non-zero
and an `if_false` block exists, the handler first writes the conditional
line's result "NO" in MAGENTA (not red — `resultColor "NO" (some 1)` is
`ansiMagenta`), then runs the inline steps, and the overall run succeeds
whenever every inline method call returns `return_code = 0`; each
successful inline step issues `set_result("OK", 0)`, whose colour for
status 0 is green. -/
theorem c4_conditional_step (ex : InlineStep → Except String (Option CommandResultType))
    (ts : String) (res : CommandResultType) (ifT ifF : List InlineStep)
    (n : Nat) (t : Tracker) :
    (res.return_code = 0 → ifT = [] →
      handle_conditional_step ex ts true (some res) ifT ifF n t =
        (t, [], Except.ok (some res))) ∧
    (res.return_code ≠ 0 → ifF ≠ [] → t.state = TrackerState.BODY →
      (∃ w, (handle_conditional_step ex ts true (some res) ifT ifF n t).2.1 =
          ["\x1b[u", ansiMagenta ++ "NO" ++ ansiReset, "\x1b[K"] ++ w) ∧
      ((∀ s ∈ ifF, ∃ r, ex s = Except.ok (some r) ∧ r.return_code = 0) →
        ∃ last, (handle_conditional_step ex ts true (some res) ifT ifF n t).2.2 =
          Except.ok last)) ∧
    resultColor "OK" (some 0) = ansiGreen ∧
    resultColor "NO" (some 1) = ansiMagenta := by
  refine ⟨?_, ?_, rfl, rfl⟩
  · intro h0 hT
    subst hT
    simp [handle_conditional_step, h0]
  · intro hrc hF hB
    have hFe : ifF.isEmpty = false := by
      cases ifF with
      | nil => exact absurd rfl hF
      | cons a l => rfl
    have hq := set_result_body_eq hB "NO" 1
    constructor
    · refine ⟨(run_inline_steps ex ts n ifF 0 none
        (set_result t (some "NO") (some 1) true).2.1).2.1, ?_⟩
      simp only [handle_conditional_step, not_true, ite_false, if_false, hrc,
        hFe, Bool.false_eq_true, not_false_eq_true, ite_true, if_true]
      rw [hq]
      rfl
    · intro hall
      simp only [handle_conditional_step, not_true, ite_false, if_false, hrc,
        hFe, Bool.false_eq_true, not_false_eq_true, ite_true, if_true]
      exact run_inline_steps_ok ex ts n ifF 0 none _ hall

/-- **C4, witness.**  A failing condition with one `if_false` step whose
method succeeds: the handler's writes open with the magenta "NO" result and
the handler returns `Except.ok`. -/
theorem c4_conditional_step_witness :
    (∃ w, (handle_conditional_step execInlineOk "12:00:00 " true (some condFailResult)
        [] [inlineOkStep] 3 sampleBodyTracker).2.1 =
      ["\x1b[u", ansiMagenta ++ "NO" ++ ansiReset, "\x1b[K"] ++ w) ∧
    (∃ last, (handle_conditional_step execInlineOk "12:00:00 " true (some condFailResult)
        [] [inlineOkStep] 3 sampleBodyTracker).2.2 = Except.ok last) := by
  have h := (c4_conditional_step execInlineOk "12:00:00 " condFailResult []
      [inlineOkStep] 3 sampleBodyTracker).2.1 (by decide) (List.cons_ne_nil _ _) rfl
  refine ⟨h.1, h.2 ?_⟩
  intro s hs
  rw [List.mem_singleton] at hs
  subst hs
  exact ⟨condPassResult, rfl, rfl⟩

/-- `SequenceErrorActionType` (common/local_types.py:169-182): the per-step
error policy enum with labels "default", "break" and "resume". -/
inductive SequenceErrorActionType
  | DEFAULT
  | BREAK
  | RESUME
deriving DecidableEq

/-- `SequenceErrorActionType.from_label` (common/local_types.py:184-194):
`None` and the empty string map to `DEFAULT`; otherwise the stripped,
lowercased label is compared against the member labels, any unknown label
falling back to `DEFAULT`. -/
def from_label (label : Option String) : SequenceErrorActionType :=
  match label with
  | none => SequenceErrorActionType.DEFAULT
  | some s =>
    if s = "" then SequenceErrorActionType.DEFAULT
    else
      let l := String.mk (pyLowerL (pyStripL s.data))
      if l = "default" then SequenceErrorActionType.DEFAULT
      else if l = "break" then SequenceErrorActionType.BREAK
      else if l = "resume" then SequenceErrorActionType.RESUME
      else SequenceErrorActionType.DEFAULT

/-- One step of a sequence, with the keys `run_sequence` reads.  `method`
is `none` when the key is absent or not a string; `arguments_present`
models `step.get("arguments") is not None`; `status_on_error` is either a
plain string (`Sum.inl`) or a per-distro dictionary (`Sum.inr`, an
association list). -/
structure SeqStep where
  description : Option String := none
  method : Option String := none
  arguments_present : Bool := false
  response_store_key : Option String := none
  action_on_error : Option String := none
  status_new_line : Option Bool := none
  status_on_error : Option (String ⊕ List (String × String)) := none
  disabled : Bool := false
deriving DecidableEq

/-- The per-distro resolution of `status_on_error`
(platform_tools.py:1950-1956): a dict is looked up at the current distro,
falling back to its "default" key, else `None`; a string passes through. -/
def resolve_status_on_error (soe : Option (String ⊕ List (String × String)))
    (distro : String) : Option String :=
  match soe with
  | none => none
  | some (Sum.inl s) => some s
  | some (Sum.inr m) =>
    match m.find? (fun p => p.1 == distro) with
    | some p => some p.2
    | none =>
      match m.find? (fun p => p.1 == "default") with
      | some p => some p.2
      | none => none

/-- The step validation at platform_tools.py:1964: `method` must be a
non-whitespace string and `arguments` must be present. -/
def valid_method_and_args (step : SeqStep) : Bool :=
  match step.method with
  | some m => !(pyStrip m == "") && step.arguments_present
  | none => false

/-- The loop state of `run_sequence`: the tracker and its accumulated
terminal writes, the lines written with `print` (the empty string for a
bare `print()`), the warning counter, the `store_value` storage (keys
lowercased), the last step's result, and `step_number` (incremented only
for enabled steps). -/
structure SeqState where
  tracker : Tracker
  writes : List String
  printed : List String
  warnings : Nat
  stored : List (String × String)
  last_step_results : Option CommandResultType
  step_number : Nat
deriving DecidableEq

/-- The block at platform_tools.py:1987-1993: when `last_step_results` is a
result object with `return_code == 0`, a non-empty `response_store_key`
stores a non-empty response under the lowercased key and
`set_result("OK", 0)` is issued.  (After a `resume`d failure this runs on
the stale previous result, but the tracker is back in `PRE` so the "OK"
write is a no-op.) -/
def run_sequence_step_epilogue (step : SeqStep) (st : SeqState) : SeqState :=
  match st.last_step_results with
  | some r =>
    if r.return_code = 0 then
      let stored1 :=
        match step.response_store_key, r.response with
        | some k, some v =>
          if k ≠ "" ∧ v ≠ "" then st.stored ++ [(String.mk (pyLowerL k.data), v)]
          else st.stored
        | _, _ => st.stored
      let q := set_result st.tracker (some "OK") (some 0) true
      { st with stored := stored1, tracker := q.2.1, writes := st.writes ++ q.2.2 }
    else st
  | none => st

/-- The state in which the loop continues after a `resume`d step failure
(platform_tools.py:1981-1994): `set_pre` has been issued for the step, the
tracker shows `set_result("WARNING", 2)`, the warning counter is
incremented, `last_step_results` keeps its stale previous value, the
epilogue block runs, and `step_number` is incremented. -/
def resume_state (ts : String) (dnl : Bool) (step : SeqStep) (st : SeqState) :
    SeqState :=
  let p := set_pre st.tracker ts step.description
    (some (step.status_new_line.getD dnl))
  let st1 : SeqState := { st with tracker := p.2.1, writes := st.writes ++ p.2.2 }
  let q := set_result st1.tracker (some "WARNING") (some 2) true
  let st2 := run_sequence_step_epilogue step
    { st1 with tracker := q.2.1, writes := st1.writes ++ q.2.2, warnings := st1.warnings + 1 }
  { st2 with step_number := st.step_number + 1 }

/-- The step loop of `run_sequence` (platform_tools.py:1942-2009).
`dispatchO` abstracts the dispatch at lines 1970-1973 (the
`_handle_conditional_step` call for a "conditional" method, otherwise
`execute_python_method`), indexed by `step_number`: `Except.error e` models
a raised exception with message `e`, `Except.ok res` a normal return
(possibly `None`).  Disabled steps are skipped without incrementing
`step_number`.  An invalid `method`/`arguments` pair raises before the
dispatch.  An exception under `break`/`default` policy re-raises into the
outer handler at lines 2005-2009 — the only way that handler is reached
from inside the loop, since the tracker calls and the epilogue do not raise
— which issues `set_result("Error", 1)`, prints an empty line, echoes the
step's resolved non-empty `status_on_error`, and raises
`RuntimeError("Step {step_number + 1} failed: ...")`; under `resume` the
loop continues in `resume_state`.  On success `last_step_results` is
assigned and the epilogue block runs. -/
def run_sequence_steps
    (dispatchO : Nat → SeqStep → Except String (Option CommandResultType))
    (distro ts : String) (dnl : Bool) :
    List SeqStep → SeqState → SeqState × Except String Unit
  | [], st => (st, Except.ok ())
  | step :: rest, st =>
    if step.disabled then run_sequence_steps dispatchO distro ts dnl rest st
    else
      let soe := resolve_status_on_error step.status_on_error distro
      let p := set_pre st.tracker ts step.description
        (some (step.status_new_line.getD dnl))
      let st1 : SeqState := { st with tracker := p.2.1, writes := st.writes ++ p.2.2 }
      let outcome :=
        if valid_method_and_args step then dispatchO st.step_number step
        else Except.error ("Missing or invalid 'method' or 'arguments' in step " ++
          toString (st.step_number + 1) ++ "; both are required.")
      match outcome with
      | Except.ok res =>
        let st2 := run_sequence_step_epilogue step { st1 with last_step_results := res }
        run_sequence_steps dispatchO distro ts dnl rest
          { st2 with step_number := st.step_number + 1 }
      | Except.error e =>
        if from_label step.action_on_error = SequenceErrorActionType.RESUME then
          run_sequence_steps dispatchO distro ts dnl rest (resume_state ts dnl step st)
        else
          let q := set_result st1.tracker (some "Error") (some 1) true
          let echo := match soe with
            | some msg => if msg ≠ "" then [msg] else []
            | none => []
          let stf : SeqState :=
            { st1 with tracker := q.2.1, writes := st1.writes ++ q.2.2, printed := st1.printed ++ [""] ++ echo }
          (stf,
           Except.error ("Step " ++ toString (st.step_number + 1) ++ " failed: " ++ e))

/-- Helper: the epilogue block never touches the warning counter. -/
theorem run_sequence_step_epilogue_warnings (step : SeqStep) (st : SeqState) :
    (run_sequence_step_epilogue step st).warnings = st.warnings := by
  unfold run_sequence_step_epilogue
  cases hl : st.last_step_results with
  | none => rfl
  | some r =>
    by_cases hrc : r.return_code = 0 <;> simp [hrc]

/-- Helper: the epilogue block never touches `printed`. -/
theorem run_sequence_step_epilogue_printed (step : SeqStep) (st : SeqState) :
    (run_sequence_step_epilogue step st).printed = st.printed := by
  unfold run_sequence_step_epilogue
  cases hl : st.last_step_results with
  | none => rfl
  | some r =>
    by_cases hrc : r.return_code = 0 <;> simp [hrc]

/-- Helper: when the tracker is not in `BODY`, the epilogue's
`set_result("OK", 0)` is a no-op and no terminal write is produced. -/
theorem run_sequence_step_epilogue_writes (step : SeqStep) (st : SeqState)
    (h : st.tracker.state ≠ TrackerState.BODY) :
    (run_sequence_step_epilogue step st).writes = st.writes := by
  have hsr : set_result st.tracker (some "OK") (some 0) true = (false, st.tracker, []) := by
    simp only [set_result, if_pos h]
  unfold run_sequence_step_epilogue
  cases hl : st.last_step_results with
  | none => rfl
  | some r =>
    by_cases hrc : r.return_code = 0 <;> simp [hrc, hsr]

/-- Helper: after a `resume`d failure whose `set_pre` succeeded, the
continuation state has one more warning, the next step number, and writes
ending in the yellow "WARNING" result. -/
theorem resume_state_spec (ts : String) (dnl : Bool) (step : SeqStep) (st : SeqState)
    (hpre : (set_pre st.tracker ts step.description
        (some (step.status_new_line.getD dnl))).1 = true) :
    (resume_state ts dnl step st).warnings = st.warnings + 1 ∧
    (resume_state ts dnl step st).step_number = st.step_number + 1 ∧
    ∃ w, (resume_state ts dnl step st).writes =
      st.writes ++ w ++ ["\x1b[u", ansiLightYellow ++ "WARNING" ++ ansiReset, "\x1b[K"] := by
  have hB := set_pre_state_of_true hpre
  have hq := set_result_body_eq hB "WARNING" 2
  refine ⟨?_, rfl, ?_⟩
  · simp only [resume_state]
    rw [run_sequence_step_epilogue_warnings]
  · refine ⟨(set_pre st.tracker ts step.description
      (some (step.status_new_line.getD dnl))).2.2, ?_⟩
    simp only [resume_state]
    rw [run_sequence_step_epilogue_writes]
    · rw [hq]
      simp only [List.append_assoc]
      rfl
    · rw [hq]
      show TrackerState.PRE ≠ TrackerState.BODY
      decide

/-- **C1.**  The per-step error policy of `run_sequence`, for an enabled
step with a valid `method`/`arguments` pair whose dispatch raises (message
`e`) and whose `set_pre` succeeded: with `action_on_error` resolving to
`DEFAULT` (absent or unknown label) or `BREAK`, the loop aborts with
`RuntimeError("Step {step_number + 1} failed: {e}")`, the tracker's final
write is the "Error" result in light red, and the step's resolved non-empty
`status_on_error` text is printed (after the blank `print()` line); with
`resume`, the loop continues on the remaining steps from `resume_state`,
which carries one more warning, the next step number, and the light-yellow
"WARNING" result as its last tracker write. -/
theorem c1_sequence_error_policy
    (dispatchO : Nat → SeqStep → Except String (Option CommandResultType))
    (distro ts : String) (dnl : Bool) (step : SeqStep) (rest : List SeqStep)
    (st : SeqState) (e : String)
    (hdis : step.disabled = false)
    (hvm : valid_method_and_args step = true)
    (herr : dispatchO st.step_number step = Except.error e)
    (hpre : (set_pre st.tracker ts step.description
        (some (step.status_new_line.getD dnl))).1 = true) :
    (from_label step.action_on_error = SequenceErrorActionType.DEFAULT ∨
        from_label step.action_on_error = SequenceErrorActionType.BREAK →
      (run_sequence_steps dispatchO distro ts dnl (step :: rest) st).2 =
        Except.error ("Step " ++ toString (st.step_number + 1) ++ " failed: " ++ e) ∧
      (∃ w, (run_sequence_steps dispatchO distro ts dnl (step :: rest) st).1.writes =
          st.writes ++ w ++ ["\x1b[u", ansiLightRed ++ "Error" ++ ansiReset, "\x1b[K"]) ∧
      (∀ m, resolve_status_on_error step.status_on_error distro = some m → m ≠ "" →
        (run_sequence_steps dispatchO distro ts dnl (step :: rest) st).1.printed =
          st.printed ++ [""] ++ [m])) ∧
    (from_label step.action_on_error = SequenceErrorActionType.RESUME →
      run_sequence_steps dispatchO distro ts dnl (step :: rest) st =
        run_sequence_steps dispatchO distro ts dnl rest (resume_state ts dnl step st) ∧
      (resume_state ts dnl step st).warnings = st.warnings + 1 ∧
      (resume_state ts dnl step st).step_number = st.step_number + 1 ∧
      ∃ w, (resume_state ts dnl step st).writes =
        st.writes ++ w ++ ["\x1b[u", ansiLightYellow ++ "WARNING" ++ ansiReset, "\x1b[K"]) := by
  constructor
  · intro hact
    have hne : from_label step.action_on_error ≠ SequenceErrorActionType.RESUME := by
      rcases hact with h | h <;> rw [h] <;> decide
    have hB := set_pre_state_of_true hpre
    have hq := set_result_body_eq hB "Error" 1
    refine ⟨?_, ?_, ?_⟩
    · simp only [run_sequence_steps, hdis, hvm, herr, hne, Bool.false_eq_true,
        eq_self_iff_true, if_false, if_true, ite_false, ite_true, ne_eq,
        not_false_eq_true, not_true_eq_false]
    · refine ⟨(set_pre st.tracker ts step.description
        (some (step.status_new_line.getD dnl))).2.2, ?_⟩
      simp only [run_sequence_steps, hdis, hvm, herr, hne, Bool.false_eq_true,
        eq_self_iff_true, if_false, if_true, ite_false, ite_true, ne_eq,
        not_false_eq_true, not_true_eq_false]
      rw [hq]
      simp only [List.append_assoc]
      rfl
    · intro m hm hne2
      simp only [run_sequence_steps, hdis, hvm, herr, hne, hm, Bool.false_eq_true,
        eq_self_iff_true, if_false, if_true, ite_false, ite_true, ne_eq,
        not_false_eq_true, not_true_eq_false]
      simp [hne2]
  · intro h
    have hspec := resume_state_spec ts dnl step st hpre
    refine ⟨?_, hspec.1, hspec.2.1, hspec.2.2⟩
    simp only [run_sequence_steps, hdis, hvm, herr, h, Bool.false_eq_true,
      eq_self_iff_true, if_false, if_true, ite_false, ite_true]

/-- A dispatch oracle under which every step raises with message "boom". -/
def seqDispatchFail : Nat → SeqStep → Except String (Option CommandResultType) :=
  fun _ _ => Except.error "boom"

/-- A concrete enabled step with `action_on_error = "break"`. -/
def seqStepBreak : SeqStep :=
  { description := some "probe", method := some "m", arguments_present := true,
    action_on_error := some "break", status_on_error := some (Sum.inl "try again") }

/-- The same step with `action_on_error = "resume"`. -/
def seqStepResume : SeqStep := { seqStepBreak with action_on_error := some "resume" }

/-- The loop state right after tracker initialization. -/
def seqState0 : SeqState :=
  { tracker := (mkTracker sampleCfg false).1, writes := [], printed := [],
    warnings := 0, stored := [], last_step_results := none, step_number := 0 }

/-- **C1, witness.** -/
theorem c1_sequence_error_policy_witness :
    (run_sequence_steps seqDispatchFail "ubuntu" "12:00:00 " false [seqStepBreak] seqState0).2 =
      Except.error "Step 1 failed: boom" ∧
    (∃ w, (run_sequence_steps seqDispatchFail "ubuntu" "12:00:00 " false [seqStepBreak] seqState0).1.writes =
      seqState0.writes ++ w ++ ["\x1b[u", ansiLightRed ++ "Error" ++ ansiReset, "\x1b[K"]) ∧
    (run_sequence_steps seqDispatchFail "ubuntu" "12:00:00 " false [seqStepBreak] seqState0).1.printed =
      seqState0.printed ++ [""] ++ ["try again"] ∧
    (resume_state "12:00:00 " false seqStepResume seqState0).warnings = 1 ∧
    run_sequence_steps seqDispatchFail "ubuntu" "12:00:00 " false [seqStepResume] seqState0 =
      run_sequence_steps seqDispatchFail "ubuntu" "12:00:00 " false []
        (resume_state "12:00:00 " false seqStepResume seqState0) := by
  have h1 := c1_sequence_error_policy seqDispatchFail "ubuntu" "12:00:00 " false
    seqStepBreak [] seqState0 "boom" rfl rfl rfl (by decide)
  have h2 := c1_sequence_error_policy seqDispatchFail "ubuntu" "12:00:00 " false
    seqStepResume [] seqState0 "boom" rfl rfl rfl (by decide)
  have ha := h1.1 (Or.inr rfl)
  have hb := h2.2 rfl
  exact ⟨ha.1, ha.2.1, ha.2.2 "try again" rfl (by decide), hb.2.2.1, hb.1⟩
